import Mathlib

/-!
# celo-blockchain: keystore wallet adapter, full-node backend accessors and
# light-client construction

A shallow embedding of

* `accounts/keystore/wallet.go` (`keystoreWallet`),
* `eth/backend.go` (`Ethereum.Validator`, `TxFeeRecipient`, `BLSbase`,
  `SetValidator`, `SetTxFeeRecipient`, `New`),
* `les/client.go` (`New`, `vtSubscription`, `LightEthereum.Stop`),

and, for the parts of the light client that `les/client.go` only constructs,
a model of the spec's ValueTracker (namespace `lpc`) and of its request
distributor and retrieve manager (namespace `retrieval`).

Go methods on a pointer receiver become functions that take the receiver's
state and hand back the state after the call.  Calls that leave the modelled
file (the shared `*KeyStore`, the miner, the node stack) are made through a
record of functions supplied by the caller, and every such call is written to
the trace the method returns, so that "this method never reaches the backend"
is a statement about that trace.
-/

namespace Celo

/-! ## Go values -/

/-- One Go `byte`. -/
abbrev Byte := Fin 256

/-- A Go `[]byte`; the nil slice is the empty list. -/
abbrev Bytes := List Byte

/-- Go `error` values met in the modelled files.  The two sentinels of package
`accounts` are compared by identity in Go, so they are constructors of their
own; `New msg` is an error built by `errors.New(msg)` or `fmt.Errorf`. -/
inductive GoError where
  | ErrUnknownAccount
  | ErrNotSupported
  | New (msg : String)
  deriving DecidableEq, Repr

/-- Go `common.Address`, a `[20]byte`. -/
abbrev Address := { l : Bytes // l.length = 20 }

/-- The zero value `common.Address{}`. -/
def Address.zero : Address := ⟨List.replicate 20 0, rfl⟩

/-- An address whose twenty bytes all equal `b`. -/
def Address.fill (b : Byte) : Address := ⟨List.replicate 20 b, List.length_replicate 20 b⟩

/-- Go `accounts.URL`. -/
structure URL where
  Scheme : String
  Path : String
  deriving DecidableEq, Repr

/-- The zero value `accounts.URL{}`. -/
def URL.zero : URL := { Scheme := "", Path := "" }

/-- Go `accounts.Account`. -/
structure Account where
  Address : Address
  URL : URL
  deriving DecidableEq

/-- The zero value `accounts.Account{}`. -/
def Account.zero : Account := { Address := Address.zero, URL := URL.zero }

/-- Go `accounts.DerivationPath`, a `[]uint32`. -/
abbrev DerivationPath := List Nat

/-- Go `types.Transaction`, kept as its encoded bytes. -/
structure Transaction where
  raw : Bytes
  deriving DecidableEq

/-- Go `ecdsa.PublicKey`, kept as the two coordinates. -/
structure PublicKey where
  X : Int
  Y : Int
  deriving DecidableEq

/-- Go `blscrypto.SerializedSignature`, a `[96]byte`. -/
abbrev SerializedSignature := { l : Bytes // l.length = 96 }

/-- The zero value `blscrypto.SerializedSignature{}`. -/
def SerializedSignature.zero : SerializedSignature := ⟨List.replicate 96 0, rfl⟩

/-! ## accounts/keystore/wallet.go -/

/-- One call into the shared `*KeyStore`, with the arguments it was given. -/
inductive KeystoreCall where
  | Decrypt (account : Account) (c s1 s2 : Bytes)
  | SignHash (account : Account) (hash : Bytes)
  | SignHashWithPassphrase (account : Account) (passphrase : String) (hash : Bytes)
  | SignTx (account : Account) (tx : Option Transaction) (chainID : Option Int)
  | SignTxWithPassphrase (account : Account) (passphrase : String)
      (tx : Option Transaction) (chainID : Option Int)
  | SignBLS (account : Account) (msg extraData : Bytes) (useComposite cip22 : Bool)
  | GetPublicKey (account : Account)
  | GenerateProofOfPossession (account : Account) (address : Address)
  | GenerateProofOfPossessionBLS (account : Account) (address : Address)
  deriving DecidableEq

/-- What a wallet method does besides returning: a `log.Debug` record (the
error whose text is logged, and the account), or a call into the keystore. -/
inductive Effect where
  | debug (err : GoError) (account : Account)
  | keystore (call : KeystoreCall)
  deriving DecidableEq

/-- The methods of `*KeyStore` the wallet calls (`keystore.go` is outside the
modelled files), over a keystore state `σ`; each returns its Go results and
the keystore state after the call. -/
structure KeyStore (σ : Type) where
  Decrypt : σ → Account → Bytes → Bytes → Bytes → (Bytes × Option GoError) × σ
  SignHash : σ → Account → Bytes → (Bytes × Option GoError) × σ
  SignHashWithPassphrase : σ → Account → String → Bytes → (Bytes × Option GoError) × σ
  SignTx : σ → Account → Option Transaction → Option Int →
    (Option Transaction × Option GoError) × σ
  SignTxWithPassphrase : σ → Account → String → Option Transaction → Option Int →
    (Option Transaction × Option GoError) × σ
  SignBLS : σ → Account → Bytes → Bytes → Bool → Bool →
    (SerializedSignature × Option GoError) × σ
  GetPublicKey : σ → Account → (Option PublicKey × Option GoError) × σ
  GenerateProofOfPossession : σ → Account → Address → (Bytes × Bytes × Option GoError) × σ
  GenerateProofOfPossessionBLS : σ → Account → Address → (Bytes × Bytes × Option GoError) × σ

/-- The hash functions of packages `crypto` and `accounts` used by the wallet. -/
structure Hashes where
  Keccak256 : Bytes → Bytes
  TextHash : Bytes → Bytes

/-- Go `keystoreWallet`: the single account, and the state of the keystore the
`keystore` pointer leads to. -/
structure keystoreWallet (σ : Type) where
  account : Account
  keystore : σ

/-- The outcome of a wallet method: the Go results, the wallet afterwards, and
the effects of the call in the order they happened. -/
structure Ret (σ α : Type) where
  val : α
  wallet : keystoreWallet σ
  trace : List Effect

/-- The keystore calls among the effects of a trace. -/
def keystoreCalls : List Effect → List KeystoreCall
  | [] => []
  | Effect.keystore c :: t => c :: keystoreCalls t
  | Effect.debug _ _ :: t => keystoreCalls t

/-- A call `w.keystore.M(args)` in tail position: run the backend method on the
keystore state, record the call, return what it returned. -/
def forward {σ α : Type} (w : keystoreWallet σ) (call : KeystoreCall)
    (run : σ → α × σ) : Ret σ α :=
  { val := (run w.keystore).1
    wallet := { w with keystore := (run w.keystore).2 }
    trace := [Effect.keystore call] }

namespace keystoreWallet

variable {σ : Type}

/-- Go `(*keystoreWallet).URL`. -/
def URL (w : keystoreWallet σ) : Celo.URL := w.account.URL

/-- Go `(*keystoreWallet).Accounts`. -/
def Accounts (w : keystoreWallet σ) : List Account := [w.account]

/-- Go `(*keystoreWallet).Contains`. -/
def Contains (w : keystoreWallet σ) (account : Account) : Bool :=
  account.Address == w.account.Address &&
    (account.URL == URL.zero || account.URL == w.account.URL)

/-- Go `(*keystoreWallet).Decrypt`. -/
def Decrypt (K : KeyStore σ) (w : keystoreWallet σ) (account : Account) (c s1 s2 : Bytes) :
    Ret σ (Bytes × Option GoError) :=
  if account.Address != w.account.Address then
    { val := ([], some GoError.ErrUnknownAccount), wallet := w,
      trace := [Effect.debug GoError.ErrUnknownAccount account] }
  else if account.URL != URL.zero && account.URL != w.account.URL then
    { val := ([], some GoError.ErrUnknownAccount), wallet := w,
      trace := [Effect.debug GoError.ErrUnknownAccount account] }
  else
    forward w (KeystoreCall.Decrypt account c s1 s2) (fun s => K.Decrypt s account c s1 s2)

/-- Go `(*keystoreWallet).Derive`. -/
def Derive (w : keystoreWallet σ) (_path : DerivationPath) (_pin : Bool) :
    Ret σ (Account × Option GoError) :=
  { val := (Account.zero, some GoError.ErrNotSupported), wallet := w, trace := [] }

/-- Go `(*keystoreWallet).ConfirmAddress`. -/
def ConfirmAddress (w : keystoreWallet σ) (_path : DerivationPath) :
    Ret σ (Address × Option GoError) :=
  { val := (Address.zero, some GoError.ErrNotSupported), wallet := w, trace := [] }

/-- Go `(*keystoreWallet).signHash`. -/
def signHash (K : KeyStore σ) (w : keystoreWallet σ) (account : Account) (hash : Bytes) :
    Ret σ (Bytes × Option GoError) :=
  if !w.Contains account then
    { val := ([], some GoError.ErrUnknownAccount), wallet := w,
      trace := [Effect.debug GoError.ErrUnknownAccount account] }
  else
    forward w (KeystoreCall.SignHash account hash) (fun s => K.SignHash s account hash)

/-- Go `(*keystoreWallet).GetPublicKey`. -/
def GetPublicKey (K : KeyStore σ) (w : keystoreWallet σ) (account : Account) :
    Ret σ (Option PublicKey × Option GoError) :=
  if !w.Contains account then
    { val := (none, some GoError.ErrUnknownAccount), wallet := w,
      trace := [Effect.debug GoError.ErrUnknownAccount account] }
  else
    forward w (KeystoreCall.GetPublicKey account) (fun s => K.GetPublicKey s account)

/-- Go `(*keystoreWallet).SignBLS`. -/
def SignBLS (K : KeyStore σ) (w : keystoreWallet σ) (account : Account)
    (msg extraData : Bytes) (useComposite cip22 : Bool) :
    Ret σ (SerializedSignature × Option GoError) :=
  if !w.Contains account then
    { val := (SerializedSignature.zero, some GoError.ErrUnknownAccount), wallet := w,
      trace := [Effect.debug GoError.ErrUnknownAccount account] }
  else
    forward w (KeystoreCall.SignBLS account msg extraData useComposite cip22)
      (fun s => K.SignBLS s account msg extraData useComposite cip22)

/-- Go `(*keystoreWallet).GenerateProofOfPossession`. -/
def GenerateProofOfPossession (K : KeyStore σ) (w : keystoreWallet σ) (account : Account)
    (address : Address) : Ret σ (Bytes × Bytes × Option GoError) :=
  if !w.Contains account then
    { val := ([], [], some GoError.ErrUnknownAccount), wallet := w,
      trace := [Effect.debug GoError.ErrUnknownAccount account] }
  else
    forward w (KeystoreCall.GenerateProofOfPossession account address)
      (fun s => K.GenerateProofOfPossession s account address)

/-- Go `(*keystoreWallet).GenerateProofOfPossessionBLS`. -/
def GenerateProofOfPossessionBLS (K : KeyStore σ) (w : keystoreWallet σ) (account : Account)
    (address : Address) : Ret σ (Bytes × Bytes × Option GoError) :=
  if !w.Contains account then
    { val := ([], [], some GoError.ErrUnknownAccount), wallet := w,
      trace := [Effect.debug GoError.ErrUnknownAccount account] }
  else
    forward w (KeystoreCall.GenerateProofOfPossessionBLS account address)
      (fun s => K.GenerateProofOfPossessionBLS s account address)

/-- Go `(*keystoreWallet).SignData`. -/
def SignData (K : KeyStore σ) (H : Hashes) (w : keystoreWallet σ) (account : Account)
    (_mimeType : String) (data : Bytes) : Ret σ (Bytes × Option GoError) :=
  w.signHash K account (H.Keccak256 data)

/-- Go `(*keystoreWallet).SignHash`. -/
def SignHash (K : KeyStore σ) (w : keystoreWallet σ) (account : Account) (hash : Bytes) :
    Ret σ (Bytes × Option GoError) :=
  w.signHash K account hash

/-- Go `(*keystoreWallet).SignDataWithPassphrase`. -/
def SignDataWithPassphrase (K : KeyStore σ) (H : Hashes) (w : keystoreWallet σ)
    (account : Account) (passphrase _mimeType : String) (data : Bytes) :
    Ret σ (Bytes × Option GoError) :=
  if !w.Contains account then
    { val := ([], some GoError.ErrUnknownAccount), wallet := w,
      trace := [Effect.debug GoError.ErrUnknownAccount account] }
  else
    forward w (KeystoreCall.SignHashWithPassphrase account passphrase (H.Keccak256 data))
      (fun s => K.SignHashWithPassphrase s account passphrase (H.Keccak256 data))

/-- Go `(*keystoreWallet).SignText`. -/
def SignText (K : KeyStore σ) (H : Hashes) (w : keystoreWallet σ) (account : Account)
    (text : Bytes) : Ret σ (Bytes × Option GoError) :=
  w.signHash K account (H.TextHash text)

/-- Go `(*keystoreWallet).SignTextWithPassphrase`; this one writes no debug
record on refusal. -/
def SignTextWithPassphrase (K : KeyStore σ) (H : Hashes) (w : keystoreWallet σ)
    (account : Account) (passphrase : String) (text : Bytes) :
    Ret σ (Bytes × Option GoError) :=
  if !w.Contains account then
    { val := ([], some GoError.ErrUnknownAccount), wallet := w, trace := [] }
  else
    forward w (KeystoreCall.SignHashWithPassphrase account passphrase (H.TextHash text))
      (fun s => K.SignHashWithPassphrase s account passphrase (H.TextHash text))

/-- Go `(*keystoreWallet).SignTx`. -/
def SignTx (K : KeyStore σ) (w : keystoreWallet σ) (account : Account)
    (tx : Option Transaction) (chainID : Option Int) :
    Ret σ (Option Transaction × Option GoError) :=
  if !w.Contains account then
    { val := (none, some GoError.ErrUnknownAccount), wallet := w,
      trace := [Effect.debug GoError.ErrUnknownAccount account] }
  else
    forward w (KeystoreCall.SignTx account tx chainID) (fun s => K.SignTx s account tx chainID)

/-- Go `(*keystoreWallet).SignTxWithPassphrase`. -/
def SignTxWithPassphrase (K : KeyStore σ) (w : keystoreWallet σ) (account : Account)
    (passphrase : String) (tx : Option Transaction) (chainID : Option Int) :
    Ret σ (Option Transaction × Option GoError) :=
  if !w.Contains account then
    { val := (none, some GoError.ErrUnknownAccount), wallet := w,
      trace := [Effect.debug GoError.ErrUnknownAccount account] }
  else
    forward w (KeystoreCall.SignTxWithPassphrase account passphrase tx chainID)
      (fun s => K.SignTxWithPassphrase s account passphrase tx chainID)

end keystoreWallet

/-! ## eth/downloader sync modes, eth.Config -/

/-- Go `downloader.SyncMode`, an unsigned integer type. -/
abbrev SyncMode := Nat

/-- What `eth/downloader/modes.go` (outside the modelled files) supplies: the
two light constants, the three predicates on a mode and its `String`. -/
structure Modes where
  LightSync : SyncMode
  LightestSync : SyncMode
  IsValid : SyncMode → Bool
  SyncFullBlockChain : SyncMode → Bool
  SyncFullHeaderChain : SyncMode → Bool
  String : SyncMode → String

/-- The fields of Go `eth.Config` that `eth.New` and `les.New` read or write
themselves; `Miner.Validator`, `Miner.ExtraData` and `TxPool.Journal` are
flattened. -/
structure Config where
  SyncMode : SyncMode
  NetworkId : Nat
  NoPruning : Bool
  TrieCleanCache : Int
  TrieDirtyCache : Int
  SnapshotCache : Int
  GatewayFee : Option Int
  DatabaseCache : Int
  DatabaseHandles : Int
  DatabaseFreezer : String
  SkipBcVersionCheck : Bool
  TxPoolJournal : String
  MinerValidator : Address
  MinerExtraData : Bytes
  TxFeeRecipient : Address
  BLSbase : Address
  LightNoPrune : Bool
  deriving DecidableEq

/-- Two's-complement wrap of a Go `int` (64 bits). -/
def wrapInt (x : Int) : Int := (x + 2 ^ 63) % 2 ^ 64 - 2 ^ 63

/-- A call that leaves `eth.New` or `les.New`, or a log line.  Databases and
indexers carry the arguments the constructors choose; every other call that
builds, starts, writes or registers something is recorded by its Go name
(getters such as `stack.EventMux()` are not recorded). -/
inductive NodeEvent where
  | log (level msg : String)
  | OpenDatabaseWithFreezer (name : String) (cache handles : Int) (freezer ns : String)
  | OpenDatabase (name : String) (cache handles : Int) (ns : String)
  | NewBloomIndexer (db : String) (fullChainAvailable : Bool)
  | NewChtIndexer (db : String) (noPrune fullChainAvailable : Bool)
  | NewBloomTrieIndexer (db : String) (noPrune fullChainAvailable : Bool)
  | SetIndexers (cht bloomTrie bloom : Bool)
  | call (fn : String)
  deriving DecidableEq

/-- A Go call either returns or panics with a message. -/
inductive Outcome (α : Type) where
  | panicked (msg : String)
  | returned (val : α)
  deriving DecidableEq

/-- The engines `CreateConsensusEngine` (backend.go:256-271) can return. -/
inductive EngineKind where
  | faker
  | istanbul
  deriving DecidableEq

/-- The text of the Go runtime panic raised by a method call on a nil
interface value. -/
def nilDereference : String := "runtime error: invalid memory address or nil pointer dereference"

/-- The result `genesisErr` of `core.SetupGenesisBlockWithOverride`: no error,
or an error together with whether it is a `*params.ConfigCompatError`. -/
abbrev GenesisErr := Option (GoError × Bool)

/-- Go `genesisErr != nil && !isCompat`, with the error to return. -/
def GenesisErr.fatal : GenesisErr → Option GoError
  | some (e, false) => some e
  | _ => none

/-- Whether the type assertion `genesisErr.(*params.ConfigCompatError)` holds. -/
def GenesisErr.isCompat : GenesisErr → Bool
  | some (_, true) => true
  | _ => false

/-! ## eth/backend.go -/

/-- One call into the `*miner.Miner`. -/
inductive MinerCall where
  | SetValidator (validator : Address)
  | SetTxFeeRecipient (txFeeRecipient : Address)
  deriving DecidableEq

/-- The methods of `*miner.Miner` (outside the modelled files) called by the
setters, over a miner state `μ`. -/
structure Miner (μ : Type) where
  SetValidator : μ → Address → μ
  SetTxFeeRecipient : μ → Address → μ

/-- Go `eth.Ethereum`: the fields the modelled methods read or write.  The
`lock` only orders concurrent callers; one method runs at a time here, so
taking and releasing it leaves nothing behind. -/
structure Ethereum (μ : Type) where
  config : Config
  miner : μ
  gatewayFee : Option Int
  validator : Address
  txFeeRecipient : Address
  blsbase : Address
  networkID : Nat

/-- The outcome of a method of `*Ethereum`: the Go results, the service
afterwards and the calls made into the miner. -/
structure EthRet (μ α : Type) where
  val : α
  eth : Ethereum μ
  trace : List MinerCall

namespace Ethereum

variable {μ : Type}

/-- Go `(*Ethereum).Validator`. -/
def Validator (s : Ethereum μ) : EthRet μ (Address × Option GoError) :=
  let validator := s.validator
  if validator != Address.zero then
    { val := (validator, none), eth := s, trace := [] }
  else
    { val := (Address.zero, some (GoError.New "validator must be explicitly specified")),
      eth := s, trace := [] }

/-- Go `(*Ethereum).TxFeeRecipient`. -/
def TxFeeRecipient (s : Ethereum μ) : EthRet μ (Address × Option GoError) :=
  let txFeeRecipient := s.txFeeRecipient
  if txFeeRecipient != Address.zero then
    { val := (txFeeRecipient, none), eth := s, trace := [] }
  else
    { val := (Address.zero, some (GoError.New "txFeeRecipient must be explicitly specified")),
      eth := s, trace := [] }

/-- Go `(*Ethereum).BLSbase`. -/
def BLSbase (s : Ethereum μ) : EthRet μ (Address × Option GoError) :=
  let blsbase := s.blsbase
  if blsbase != Address.zero then
    { val := (blsbase, none), eth := s, trace := [] }
  else
    s.Validator

/-- Go `(*Ethereum).SetValidator`. -/
def SetValidator (M : Miner μ) (s : Ethereum μ) (validator : Address) : EthRet μ Unit :=
  let s1 := { s with validator := validator }
  { val := (), eth := { s1 with miner := M.SetValidator s1.miner validator },
    trace := [MinerCall.SetValidator validator] }

/-- Go `(*Ethereum).SetTxFeeRecipient`. -/
def SetTxFeeRecipient (M : Miner μ) (s : Ethereum μ) (txFeeRecipient : Address) :
    EthRet μ Unit :=
  let s1 := { s with txFeeRecipient := txFeeRecipient }
  { val := (), eth := { s1 with miner := M.SetTxFeeRecipient s1.miner txFeeRecipient },
    trace := [MinerCall.SetTxFeeRecipient txFeeRecipient] }

end Ethereum

/-- What the node stack and the packages behind `eth.New` answered during one
construction: constants of other packages, for each call that can fail the
error it returned, if any, and the engine `CreateConsensusEngine` returned: the
faker, the Istanbul backend, or nil (`none`) when the chain configuration asks
for neither. -/
structure EthEnv (μ : Type) where
  DefaultGatewayFee : Int
  BlockChainVersion : Nat
  VersionWithMeta : String
  OpenDatabaseWithFreezer : Option GoError
  genesisErr : GenesisErr
  bcVersion : Option Nat
  NewBlockChain : Option GoError
  ResolvePath : String → String
  NewProtocolManager : Option GoError
  engine : Option EngineKind
  miner : μ
  setupDiscovery : Option GoError

/-- The outcome of `eth.New`: the Go results or the panic, the `*Config`
afterwards and the events of the call in order. -/
structure EthNewRet (μ : Type) where
  val : Outcome (Option (Ethereum μ) × Option GoError)
  config : Config
  trace : List NodeEvent

/-- Lines 104-112 of `eth.New`: fold the dirty-cache allowance into the other
caches when pruning is off. -/
def sanitizeCaches (config : Config) : Config :=
  if config.NoPruning && decide (config.TrieDirtyCache > 0) then
    let config1 :=
      if config.SnapshotCache > 0 then
        let c := { config with
          TrieCleanCache :=
            wrapInt (config.TrieCleanCache + (wrapInt (config.TrieDirtyCache * 3)).tdiv 5) }
        { c with
          SnapshotCache :=
            wrapInt (c.SnapshotCache + (wrapInt (c.TrieDirtyCache * 2)).tdiv 5) }
      else
        { config with TrieCleanCache := wrapInt (config.TrieCleanCache + config.TrieDirtyCache) }
    { config1 with TrieDirtyCache := 0 }
  else config

/-- The test `config.GatewayFee == nil || config.GatewayFee.Cmp(common.Big0) < 0`. -/
def invalidGatewayFee (fee : Option Int) : Bool :=
  match fee with
  | none => true
  | some f => decide (f < 0)

/-- Lines 155-162 of `eth.New`: the database version check; `inl` is the error
to return, `inr` the events of a passing check. -/
def checkBcVersion {μ : Type} (E : EthEnv μ) (config : Config) :
    GoError ⊕ List NodeEvent :=
  if !config.SkipBcVersionCheck then
    match E.bcVersion with
    | some v =>
      if v > E.BlockChainVersion then
        Sum.inl (GoError.New ("database version is v" ++ toString v ++ ", Geth " ++
          E.VersionWithMeta ++ " only supports v" ++ toString E.BlockChainVersion))
      else if v < E.BlockChainVersion then
        Sum.inr [NodeEvent.log "warn" "Upgrade blockchain database version",
          NodeEvent.call "rawdb.WriteDatabaseVersion"]
      else Sum.inr []
    | none =>
      Sum.inr [NodeEvent.log "warn" "Upgrade blockchain database version",
        NodeEvent.call "rawdb.WriteDatabaseVersion"]
  else Sum.inr []

namespace eth

/-- Go `eth.New`.  With a nil engine the argument `eth.APIs()` of
`stack.RegisterAPIs` panics at `s.engine.APIs(...)` (backend.go:279). -/
def New {μ : Type} (D : Modes) (E : EthEnv μ) (config : Config) : EthNewRet μ :=
  if !D.SyncFullBlockChain config.SyncMode then
    { val := Outcome.returned (none, some (GoError.New
        "can't run eth.Ethereum in light sync mode or lightest sync mode, use les.LightEthereum")),
      config := config, trace := [] }
  else if !D.IsValid config.SyncMode then
    { val := Outcome.returned
        (none, some (GoError.New ("invalid sync mode " ++ toString config.SyncMode))),
      config := config, trace := [] }
  else
    let config := sanitizeCaches config
    let t1 := [NodeEvent.log "info" "Allocated trie memory caches"]
    let bad := invalidGatewayFee config.GatewayFee
    let t2 := if bad then t1 ++ [NodeEvent.log "warn" "Sanitizing invalid gateway fee"] else t1
    let config := if bad then { config with GatewayFee := some E.DefaultGatewayFee } else config
    let t3 := t2 ++ [NodeEvent.OpenDatabaseWithFreezer "chaindata" config.DatabaseCache
      config.DatabaseHandles config.DatabaseFreezer "eth/db/chaindata/"]
    match E.OpenDatabaseWithFreezer with
    | some err => { val := Outcome.returned (none, some err), config := config, trace := t3 }
    | none =>
    let t4 := t3 ++ [NodeEvent.call "core.SetupGenesisBlockWithOverride"]
    match E.genesisErr.fatal with
    | some err => { val := Outcome.returned (none, some err), config := config, trace := t4 }
    | none =>
    let t5 := t4 ++ [NodeEvent.log "info" "Initialised chain configuration",
      NodeEvent.call "CreateConsensusEngine",
      NodeEvent.NewBloomIndexer "chaindata" (D.SyncFullHeaderChain config.SyncMode),
      NodeEvent.call "rawdb.ReadDatabaseVersion",
      NodeEvent.log "info" "Initialising Ethereum protocol"]
    match checkBcVersion E config with
    | Sum.inl err => { val := Outcome.returned (none, some err), config := config, trace := t5 }
    | Sum.inr tv =>
    let t6 := t5 ++ tv ++ [NodeEvent.call "stack.ResolvePath", NodeEvent.call "core.NewBlockChain"]
    match E.NewBlockChain with
    | some err => { val := Outcome.returned (none, some err), config := config, trace := t6 }
    | none =>
    let t7 := if E.genesisErr.isCompat then
        t6 ++ [NodeEvent.log "warn" "Rewinding chain to upgrade configuration",
          NodeEvent.call "blockchain.SetHead", NodeEvent.call "rawdb.WriteChainConfig"]
      else t6
    let t8 := t7 ++ [NodeEvent.call "bloomIndexer.Start"]
    let journal := config.TxPoolJournal != ""
    let t9 := if journal then t8 ++ [NodeEvent.call "stack.ResolvePath"] else t8
    let config :=
      if journal then { config with TxPoolJournal := E.ResolvePath config.TxPoolJournal }
      else config
    let t10 := t9 ++ [NodeEvent.call "core.NewTxPool", NodeEvent.call "NewProtocolManager"]
    match E.NewProtocolManager with
    | some err => { val := Outcome.returned (none, some err), config := config, trace := t10 }
    | none =>
    let t11 :=
      if E.engine == some EngineKind.istanbul then t10 ++ [NodeEvent.call "istanbul.SetChain"]
      else t10
    let t12 := t11 ++ [NodeEvent.call "miner.New", NodeEvent.call "miner.SetExtra",
      NodeEvent.call "setupDiscovery"]
    match E.setupDiscovery with
    | some err => { val := Outcome.returned (none, some err), config := config, trace := t12 }
    | none =>
    let t13 := t12 ++ [NodeEvent.call "ethapi.NewPublicNetAPI"]
    match E.engine with
    | none => { val := Outcome.panicked nilDereference, config := config, trace := t13 }
    | some _ =>
    { val := Outcome.returned (some
        { config := config
          miner := E.miner
          gatewayFee := config.GatewayFee
          validator := config.MinerValidator
          txFeeRecipient := config.TxFeeRecipient
          blsbase := config.BLSbase
          networkID := config.NetworkId }, none)
      config := config
      trace := t13 ++ [NodeEvent.call "stack.RegisterAPIs",
        NodeEvent.call "stack.RegisterProtocols", NodeEvent.call "stack.RegisterLifecycle"] }

end eth

/-! ## les/client.go -/

/-- A Go channel as far as `close` can tell: nil, made and not yet closed, or
closed. -/
inductive Chan where
  | nil
  | live
  | closed
  deriving DecidableEq

/-- Go `close(ch)`: closes a live channel, panics on a nil or closed one. -/
def Chan.close : Chan → Outcome Chan
  | Chan.nil => Outcome.panicked "close of nil channel"
  | Chan.live => Outcome.returned Chan.closed
  | Chan.closed => Outcome.panicked "close of closed channel"

/-- A `*core.ChainIndexer` as `les.New` builds it: the database it indexes and
the flags it was given. -/
structure ChainIndexer where
  db : String
  fullChainAvailable : Bool
  deriving DecidableEq

/-- Go `les.LightEthereum`: the fields `les.New` decides itself (the other
fields are handles to collaborators outside the modelled files). -/
structure LightEthereum where
  config : Config
  chainDb : String
  closeCh : Chan
  networkId : Nat
  bloomIndexer : Option ChainIndexer
  chtIndexer : Option ChainIndexer
  bloomTrieIndexer : Option ChainIndexer
  deriving DecidableEq

/-- What the node stack and the packages behind `les.New` answered during one
construction: for each call that can fail the error it returned, if any
(`OpenDatabase` by database name), the engine `eth.CreateConsensusEngine`
returned (the faker, the Istanbul backend, or nil, `none`, when the chain
configuration asks for neither) and whether the client handler came back with
an ultra-light client. -/
structure LesEnv where
  OpenDatabase : String → Option GoError
  genesisErr : GenesisErr
  setupDiscovery : Option GoError
  NewLightChain : Option GoError
  engine : Option EngineKind
  ulc : Bool

/-- The outcome of `les.New` and the events of the call in order. -/
structure LesNewRet where
  val : Outcome (Option LightEthereum × Option GoError)
  trace : List NodeEvent

/-- Lines 81-92 of `les.New`: `chainName` and `fullChainAvailable` from the
sync mode, or the panic. -/
def chainSelection (D : Modes) (syncMode : SyncMode) : Outcome (String × Bool) :=
  if syncMode == D.LightSync then
    Outcome.returned ("lightchaindata", true)
  else if syncMode == D.LightestSync then
    Outcome.returned ("lightestchaindata", false)
  else
    Outcome.panicked ("Unexpected sync mode: " ++ D.String syncMode)

/-- Lines 94-212 of `les.New`, after `chainName` and `fullChainAvailable` are
set.  With a nil engine the argument `leth.APIs()` of `stack.RegisterAPIs`
panics at `s.engine.APIs(...)` (client.go:257). -/
def assemble (E : LesEnv) (config : Config) (chainName : String)
    (fullChainAvailable : Bool) : LesNewRet :=
  let t1 := [NodeEvent.OpenDatabase chainName config.DatabaseCache config.DatabaseHandles
    "eth/db/chaindata/"]
  match E.OpenDatabase chainName with
  | some err => { val := Outcome.returned (none, some err), trace := t1 }
  | none =>
  let t2 := t1 ++ [NodeEvent.OpenDatabase "lespay" 0 0 "eth/db/lespay"]
  match E.OpenDatabase "lespay" with
  | some err => { val := Outcome.returned (none, some err), trace := t2 }
  | none =>
  let t3 := t2 ++ [NodeEvent.call "core.SetupGenesisBlockWithOverride"]
  match E.genesisErr.fatal with
  | some err => { val := Outcome.returned (none, some err), trace := t3 }
  | none =>
  let t4 := t3 ++ [NodeEvent.log "info" "Initialised chain configuration",
    NodeEvent.call "newServerPeerSet", NodeEvent.call "newRequestDistributor",
    NodeEvent.call "eth.CreateConsensusEngine", NodeEvent.call "lpc.NewValueTracker",
    NodeEvent.call "peers.subscribe(vtSubscription)", NodeEvent.call "setupDiscovery"]
  match E.setupDiscovery with
  | some err => { val := Outcome.returned (none, some err), trace := t4 }
  | none =>
  let t5 := t4 ++ [NodeEvent.call "newServerPool", NodeEvent.call "peers.subscribe(serverPool)",
    NodeEvent.call "newRetrieveManager", NodeEvent.call "newLesTxRelay",
    NodeEvent.call "NewLesOdr"]
  let leth : LightEthereum :=
    { config := config, chainDb := chainName, closeCh := Chan.live,
      networkId := config.NetworkId,
      bloomIndexer := none, chtIndexer := none, bloomTrieIndexer := none }
  let leth :=
    if fullChainAvailable then
      { leth with
        bloomIndexer := some { db := chainName, fullChainAvailable := fullChainAvailable }
        chtIndexer := some { db := chainName, fullChainAvailable := fullChainAvailable }
        bloomTrieIndexer := some { db := chainName, fullChainAvailable := fullChainAvailable } }
    else leth
  let t6 :=
    if fullChainAvailable then
      t5 ++ [NodeEvent.NewBloomIndexer chainName fullChainAvailable,
        NodeEvent.NewChtIndexer chainName config.LightNoPrune fullChainAvailable,
        NodeEvent.NewBloomTrieIndexer chainName config.LightNoPrune fullChainAvailable]
    else t5
  let t7 := t6 ++ [NodeEvent.SetIndexers leth.chtIndexer.isSome leth.bloomTrieIndexer.isSome
    leth.bloomIndexer.isSome, NodeEvent.call "light.NewLightChain"]
  match E.NewLightChain with
  | some err => { val := Outcome.returned (none, some err), trace := t7 }
  | none =>
  let t8 := t7 ++ [NodeEvent.call "light.NewTxPool", NodeEvent.call "setupOracle"]
  let t9 :=
    if leth.bloomIndexer.isSome && leth.bloomTrieIndexer.isSome then
      t8 ++ [NodeEvent.call "bloomIndexer.AddChildIndexer", NodeEvent.call "bloomIndexer.Start"]
    else t8
  let t10 := if leth.chtIndexer.isSome then t9 ++ [NodeEvent.call "chtIndexer.Start"] else t9
  let t11 := t10 ++ [NodeEvent.call "newPruner"]
  let t12 :=
    if E.genesisErr.isCompat then
      t11 ++ [NodeEvent.log "warn" "Rewinding chain to upgrade configuration",
        NodeEvent.call "blockchain.SetHead", NodeEvent.call "rawdb.WriteChainConfig"]
    else t11
  let t13 :=
    if E.engine == some EngineKind.istanbul then t12 ++ [NodeEvent.call "istanbul.SetChain"]
    else t12
  let t14 := t13 ++ [NodeEvent.call "newClientHandler"]
  let t15 :=
    if E.ulc then
      t14 ++ [NodeEvent.log "warn" "Ultra light client is enabled",
        NodeEvent.call "blockchain.DisableCheckFreq"]
    else t14
  let t16 := t15 ++ [NodeEvent.call "ethapi.NewPublicNetAPI"]
  match E.engine with
  | none => { val := Outcome.panicked nilDereference, trace := t16 }
  | some _ =>
  { val := Outcome.returned (some leth, none)
    trace := t16 ++ [NodeEvent.call "stack.RegisterAPIs",
      NodeEvent.call "stack.RegisterProtocols", NodeEvent.call "stack.RegisterLifecycle"] }

namespace les

/-- Go `les.New`. -/
def New (D : Modes) (E : LesEnv) (config : Config) : LesNewRet :=
  match chainSelection D config.SyncMode with
  | Outcome.panicked msg => { val := Outcome.panicked msg, trace := [] }
  | Outcome.returned (chainName, fullChainAvailable) =>
    assemble E config chainName fullChainAvailable

end les

/-- Whether an event creates the bloom, CHT or bloom-trie indexer. -/
def NodeEvent.createsIndexer : NodeEvent → Bool
  | NodeEvent.NewBloomIndexer _ _ => true
  | NodeEvent.NewChtIndexer _ _ _ => true
  | NodeEvent.NewBloomTrieIndexer _ _ _ => true
  | _ => false

/-! ### vtSubscription -/

/-- Go `enode.ID`, a `[32]byte`. -/
abbrev ID := { l : Bytes // l.length = 32 }

/-- An ID whose thirty-two bytes all equal `b`. -/
def ID.fill (b : Byte) : ID := ⟨List.replicate 32 b, List.length_replicate 32 b⟩

/-- Go `lpc.ValueTracker` behind a `*ValueTracker`: where the pointer points,
and the tracker's state (`τ`, package `lespay/client` is outside the modelled
files). -/
structure ValueTracker (τ : Type) where
  addr : Nat
  state : τ

/-- Modelled from the spec: the `serverPeer` of `les/peer.go`, which is not
among the sources.  Of the spec's Peer ("identity (opaque peer ID) ... and a
reference to its ValueTracker entry") it keeps the identity, the reference to
the tracker, the reference to the tracker's entry for this peer, and the
remaining fields as `rest`. -/
structure serverPeer (ν ρ : Type) where
  id : ID
  valueTracker : Option Nat
  nodeValueTracker : Option ν
  rest : ρ

/-- Go `(*serverPeer).ID`. -/
def serverPeer.ID {ν ρ : Type} (p : serverPeer ν ρ) : Celo.ID := p.id

/-- Modelled from the spec: `(*serverPeer).setValueTracker` of `les/peer.go`,
which is not among the sources; it binds the peer's two references, to the
tracker and to its ValueTracker entry. -/
def serverPeer.setValueTracker {ν ρ : Type} (p : serverPeer ν ρ) (vt : Option Nat)
    (nvt : Option ν) : serverPeer ν ρ :=
  { p with valueTracker := vt, nodeValueTracker := nvt }

/-- The calls `registerPeer` and `unregisterPeer` make. -/
inductive VtCall where
  | Register (id : ID)
  | Unregister (id : ID)
  | updateVtParams (id : ID)
  deriving DecidableEq

/-- The methods outside the modelled files that the subscription calls:
`ValueTracker.Register` (which returns the entry, nil once the tracker is
stopped), `ValueTracker.Unregister`, and `serverPeer.updateVtParams`. -/
structure VtOps (τ ν ρ : Type) where
  Register : τ → ID → Option ν × τ
  Unregister : τ → ID → τ
  updateVtParams : serverPeer ν ρ → τ → serverPeer ν ρ × τ

/-- The outcome of a subscriber callback: the peer and the tracker afterwards,
and the calls made in order. -/
structure VtRet (τ ν ρ : Type) where
  peer : serverPeer ν ρ
  tracker : ValueTracker τ
  trace : List VtCall

namespace vtSubscription

variable {τ ν ρ : Type}

/-- Go `(*vtSubscription).registerPeer`. -/
def registerPeer (O : VtOps τ ν ρ) (v : ValueTracker τ) (p : serverPeer ν ρ) : VtRet τ ν ρ :=
  let vt := v
  let r := O.Register vt.state p.ID
  let p1 := p.setValueTracker (some vt.addr) r.1
  let u := O.updateVtParams p1 r.2
  { peer := u.1, tracker := { vt with state := u.2 },
    trace := [VtCall.Register p.ID, VtCall.updateVtParams p1.ID] }

/-- Go `(*vtSubscription).unregisterPeer`. -/
def unregisterPeer (O : VtOps τ ν ρ) (v : ValueTracker τ) (p : serverPeer ν ρ) :
    VtRet τ ν ρ :=
  let vt := v
  let st := O.Unregister vt.state p.ID
  { peer := p.setValueTracker none none, tracker := { vt with state := st },
    trace := [VtCall.Unregister p.ID] }

end vtSubscription

/-! ### LightEthereum.Stop -/

/-- The collaborators `Stop` shuts down (server pool, value tracker, peer set,
request distributor, ODR, relay, indexers, chain, handler, pool, engine,
pruner, event mux, database, wait group), all outside the modelled files:
their joint state is a `γ`, and `stop name` is what the call of that Go name
does to it. -/
structure Collaborators (γ : Type) where
  stop : String → γ → γ

/-- The outcome of `Stop`: the Go result or the panic, the service and its
collaborators afterwards, and the events of the call in order. -/
structure StopRet (γ : Type) where
  val : Outcome (Option GoError)
  leth : LightEthereum
  parts : γ
  trace : List NodeEvent

/-- The calls of `Stop` after `close(s.closeCh)`, in order; the two indexers are
closed only when present. -/
def stopCalls (s : LightEthereum) : List String :=
  ["serverPool.stop", "valueTracker.Stop", "peers.close", "reqDist.close", "odr.Stop",
    "relay.Stop"] ++
  (if s.bloomIndexer != none then ["bloomIndexer.Close"] else []) ++
  (if s.chtIndexer != none then ["chtIndexer.Close"] else []) ++
  ["blockchain.Stop", "handler.stop", "txPool.Stop", "engine.Close", "pruner.close",
    "eventMux.Stop", "chainDb.Close", "wg.Wait"]

/-- Go `(*LightEthereum).Stop`. -/
def LightEthereum.Stop {γ : Type} (O : Collaborators γ) (s : LightEthereum) (parts : γ) :
    StopRet γ :=
  match s.closeCh.close with
  | Outcome.panicked msg =>
    { val := Outcome.panicked msg, leth := s, parts := parts, trace := [] }
  | Outcome.returned ch =>
    let s1 := { s with closeCh := ch }
    { val := Outcome.returned none
      leth := s1
      parts := (stopCalls s1).foldl (fun g name => O.stop name g) parts
      trace := (stopCalls s1).map NodeEvent.call ++
        [NodeEvent.log "info" "Light ethereum stopped"] }

/-! ## The ValueTracker of the spec (§3, §4.1)

`les/lespay/client` is not among the sources; `les.New` only constructs the
tracker (`lpc.NewValueTracker`, with the expiration rates 1/hour, 1/(100 hours)
and 1/(1000 hours)).  The definitions below follow the spec's data model and
contract.  They are written over any field `K` with the exponential passed in,
so that they can be run over `ℚ`; the theorems take `K = ℝ` and the real
exponential, the spec's `exp`. -/

namespace lpc

/-- Modelled from the spec: one "exponentially time-decayed accumulator" of a
ValueTracker entry (the ValueTracker is not among the sources): its decay
half-life, the weight `peerValue` gives it in the "weighted sum across
horizons", and the total value it tracks. -/
structure Accumulator (K : Type) where
  halfLife : K
  weight : K
  value : K

/-- Modelled from the spec: the "ValueTracker entry" of one peer (the
ValueTracker is not among the sources), "an array of exponentially time-decayed
accumulators, one per decay half-life ... plus last-update timestamp". -/
structure Entry (K : Type) where
  accumulators : List (Accumulator K)
  lastUpdate : K

/-- Modelled from the spec: what the ValueTracker (not among the sources)
leaves to the implementation, the exponential `exp` of the decay rule and the
"implementation-defined" cost/value units: `normalize category cost value` is
the cost-normalized value credited for an observation. -/
structure TrackerParams (K C : Type) where
  exp : K → K
  normalize : C → K → K → K

/-- Modelled from the spec: the decay rule of a ValueTracker accumulator (not
among the sources), `value *= exp(-Δt/halfLife)`. -/
def Accumulator.decay {K : Type} [Field K] (exp : K → K) (a : Accumulator K) (dt : K) :
    Accumulator K :=
  { a with value := a.value * exp (-dt / a.halfLife) }

/-- Modelled from the spec: lazy decay of a ValueTracker entry (not among the
sources) on read or write, "purely as a function of (storedValue,
lastUpdateTime, now)": every accumulator is decayed by the time since the last
update, and the entry is stamped `now`. -/
def Entry.decay {K : Type} [Field K] (exp : K → K) (e : Entry K) (now : K) : Entry K :=
  { accumulators := e.accumulators.map (fun a => a.decay exp (now - e.lastUpdate))
    lastUpdate := now }

/-- Modelled from the spec: the write of `credit` on one ValueTracker entry (not
among the sources), which "updates all decay accumulators ... using the current
time": decay to `now`, then add the credited amount to each accumulator. -/
def Entry.credit {K : Type} [Field K] (exp : K → K) (e : Entry K) (now amount : K) : Entry K :=
  { accumulators := (e.decay exp now).accumulators.map
      (fun a => { a with value := a.value + amount })
    lastUpdate := now }

/-- Modelled from the spec: the read behind `peerValue` on one ValueTracker
entry (not among the sources): decay to `now`, then the "weighted sum across
horizons". -/
def Entry.peerValue {K : Type} [Field K] (exp : K → K) (e : Entry K) (now : K) : K :=
  ((e.decay exp now).accumulators.map (fun a => a.weight * a.value)).sum

/-- Modelled from the spec: `credit(peerID, category, observedCost,
observedValue)` of the ValueTracker (not among the sources), at time `now`, on
the entries of all peers: the entry of `peerID` is credited with the
cost-normalized value, the entries of the other peers stay as they are. -/
def credit {K P C : Type} [Field K] [DecidableEq P] (T : TrackerParams K C)
    (entries : P → Entry K) (now : K) (peerID : P) (category : C)
    (observedCost observedValue : K) : P → Entry K :=
  fun q =>
    if q = peerID then
      (entries peerID).credit T.exp now (T.normalize category observedCost observedValue)
    else entries q

/-- Modelled from the spec: `peerValue(peerID)` of the ValueTracker (not among
the sources), read at time `now`. -/
def peerValue {K P C : Type} [Field K] (T : TrackerParams K C) (entries : P → Entry K)
    (now : K) (peerID : P) : K :=
  (entries peerID).peerValue T.exp now

/-- Modelled from the spec: a run of credits `(category, observedCost,
observedValue)` to one peer of the ValueTracker (not among the sources), all at
time `now`, so with no decay between them. -/
def creditMany {K P C : Type} [Field K] [DecidableEq P] (T : TrackerParams K C)
    (entries : P → Entry K) (now : K) (peerID : P) (credits : List (C × K × K)) :
    P → Entry K :=
  credits.foldl (fun es c => credit T es now peerID c.1 c.2.1 c.2.2) entries

/-- An entry is well formed when every half-life is positive, no weight is
negative and some weight is positive. -/
def Entry.wellFormed {K : Type} [LinearOrderedField K] (e : Entry K) : Prop :=
  (∀ a ∈ e.accumulators, 0 < a.halfLife ∧ 0 ≤ a.weight) ∧ ∃ a ∈ e.accumulators, 0 < a.weight

/-- A fresh entry with the three time constants `les.New` hands to
`lpc.NewValueTracker`, the reciprocals of the rates `1/float64(time.Hour)`,
`1/float64(time.Hour*100)` and `1/float64(time.Hour*1000)` in nanoseconds, with
equal weights and nothing credited yet. -/
def clientEntry (K : Type) [Field K] : Entry K :=
  { accumulators :=
      [{ halfLife := 3600000000000, weight := 1, value := 0 },
       { halfLife := 360000000000000, weight := 1, value := 0 },
       { halfLife := 3600000000000000, weight := 1, value := 0 }]
    lastUpdate := 0 }

end lpc

/-! ## The RequestDistributor and RetrieveManager of the spec (§4.4, §4.5, §7)

Neither is among the sources; `les.New` only constructs them
(`newRequestDistributor`, `newRetrieveManager`).  One retrieval is modelled,
over a peer set that does not change while it runs and with no other request
in flight; `P` is the type of peer IDs. -/

namespace retrieval

/-- Modelled from the spec: the error taxonomy of §7 for the retrieval layer
(not among the sources). -/
inductive RetrieveError where
  | NoAvailablePeer
  | Timeout
  | InvalidResponse
  | PeerDisconnected
  | Cancelled
  | Exhausted
  deriving DecidableEq, Repr

/-- Modelled from the spec: how one attempt on a peer ends, step (3)-(4) of
`retrieve` (the RetrieveManager is not among the sources): a reply, which the
category's validation accepts or rejects, a timeout, or the peer's
disconnection. -/
inductive Reply (α : Type) where
  | answer (obj : α) (valid : Bool)
  | timeout
  | disconnected
  deriving DecidableEq, Repr

/-- Modelled from the spec: the "retrieval request" of §3 as far as
distribution reads it (the RetrieveManager is not among the sources): the
capability predicate that makes a peer eligible, and the cancellation token. -/
structure Request (P : Type) where
  eligible : P → Bool
  cancelled : Bool

/-- Modelled from the spec: the candidates of `distribute`, §4.4 (the
RequestDistributor is not among the sources): the registered peers "meeting the
request's capability predicate and not already tried for this request". -/
def candidates {P : Type} [DecidableEq P] (peers : List P) (req : Request P)
    (tried : List P) : List P :=
  (peers.filter req.eligible).filter (fun p => decide (p ∉ tried))

/-- Modelled from the spec: `distribute(request)`, §4.4 (the
RequestDistributor is not among the sources): `Cancelled` once the token is
set, otherwise the candidate of best combined score (`score tried p`, which may
change as peers are penalized), or `NoAvailablePeer` when there is none. -/
def distribute {P : Type} [DecidableEq P] (score : List P → P → Int) (peers : List P)
    (req : Request P) (tried : List P) : Except RetrieveError P :=
  if req.cancelled then Except.error RetrieveError.Cancelled
  else
    match (candidates peers req tried).argmax (score tried) with
    | some p => Except.ok p
    | none => Except.error RetrieveError.NoAvailablePeer

/-- The outcome of a retrieval: the result delivered to the caller, the peers
the request was sent to, one per attempt and oldest first, the peers marked
tried-and-excluded, and the remaining-attempts counter at the end. -/
structure RetrieveRet (P α : Type) where
  result : Except RetrieveError α
  sent : List P
  tried : List P
  remaining : Nat

/-- Modelled from the spec: the loop of `retrieve`, §4.5 (the RetrieveManager
is not among the sources), with `remaining` attempts left.  With none left the
result is `Exhausted`.  Otherwise it asks the distributor for a peer; sends the
request; on a valid reply returns the object; on an invalid reply, a timeout or
a disconnection "marks the peer as tried-and-excluded for this request,
decrements a remaining-attempts counter, and loops".  `Cancelled` goes to the
caller.  The spec does not say whether `NoAvailablePeer` spends an attempt and
is retried (§7) or ends the retrieval at once ("exhausting attempts yields
ErrNoPeers/ErrExhausted"): `noPeerSpendsAttempt` selects the reading. -/
def retrieveLoop {P α : Type} [DecidableEq P] (noPeerSpendsAttempt : Bool)
    (score : List P → P → Int) (peers : List P) (req : Request P) (reply : P → Reply α) :
    Nat → List P → List P → RetrieveRet P α
  | 0, tried, sent =>
    { result := Except.error RetrieveError.Exhausted, sent := sent, tried := tried,
      remaining := 0 }
  | k + 1, tried, sent =>
    match distribute score peers req tried with
    | Except.ok p =>
      match reply p with
      | Reply.answer obj true =>
        { result := Except.ok obj, sent := sent ++ [p], tried := tried, remaining := k + 1 }
      | _ => retrieveLoop noPeerSpendsAttempt score peers req reply k (p :: tried) (sent ++ [p])
    | Except.error RetrieveError.Cancelled =>
      { result := Except.error RetrieveError.Cancelled, sent := sent, tried := tried,
        remaining := k + 1 }
    | Except.error _ =>
      if noPeerSpendsAttempt then
        retrieveLoop noPeerSpendsAttempt score peers req reply k tried sent
      else
        { result := Except.error RetrieveError.Exhausted, sent := sent, tried := tried,
          remaining := k + 1 }

/-- Modelled from the spec: `retrieve(request, maxAttempts)`, §4.5 (the
RetrieveManager is not among the sources): the loop started with no peer tried
and nothing sent. -/
def retrieve {P α : Type} [DecidableEq P] (noPeerSpendsAttempt : Bool)
    (score : List P → P → Int) (peers : List P) (req : Request P) (reply : P → Reply α)
    (maxAttempts : Nat) : RetrieveRet P α :=
  retrieveLoop noPeerSpendsAttempt score peers req reply maxAttempts [] []

/-- The distinct eligible peers of a request. -/
def eligiblePeers {P : Type} [DecidableEq P] (peers : List P) (req : Request P) : List P :=
  (peers.filter req.eligible).dedup

/-- The number of distinct eligible peers not yet tried. -/
def untried {P : Type} [DecidableEq P] (peers : List P) (req : Request P) (tried : List P) :
    Nat :=
  ((eligiblePeers peers req).filter (fun p => decide (p ∉ tried))).length

end retrieval

/-! ## Predicates used to state the wallet's contract -/

/-- The call was refused: the Go results are `zero` with
`accounts.ErrUnknownAccount`, the wallet (and so the keystore behind it) is as
before, and no call reached the keystore. -/
def Ret.refused {σ α : Type} (r : Ret σ (α × Option GoError)) (w : keystoreWallet σ)
    (zero : α) : Prop :=
  r.val = (zero, some GoError.ErrUnknownAccount) ∧ r.wallet = w ∧ keystoreCalls r.trace = []

/-- The call was forwarded: exactly one keystore call `call` was made, the Go
results are what the keystore returned (`out.1`), and the keystore is in the
state the call left it in (`out.2`). -/
def Ret.forwarded {σ α : Type} (r : Ret σ α) (w : keystoreWallet σ) (call : KeystoreCall)
    (out : α × σ) : Prop :=
  r.val = out.1 ∧ r.wallet = { w with keystore := out.2 } ∧ keystoreCalls r.trace = [call]

/-! ## Sample data for evaluating the model -/

/-- A keystore over a call counter: it answers with its input reversed and
counts the calls it served. -/
def sampleKeyStore : KeyStore Nat where
  Decrypt := fun s _ c _ _ => ((c.reverse, none), s + 1)
  SignHash := fun s _ h => ((h.reverse, none), s + 1)
  SignHashWithPassphrase := fun s _ _ h => ((h.reverse, none), s + 1)
  SignTx := fun s _ tx _ => ((tx, none), s + 1)
  SignTxWithPassphrase := fun s _ _ tx _ => ((tx, none), s + 1)
  SignBLS := fun s _ _ _ _ _ => ((SerializedSignature.zero, none), s + 1)
  GetPublicKey := fun s _ => ((some { X := 1, Y := 2 }, none), s + 1)
  GenerateProofOfPossession := fun s _ a => ((a.val, a.val.reverse, none), s + 1)
  GenerateProofOfPossessionBLS := fun s _ a => ((a.val, a.val.reverse, none), s + 1)

/-- Stand-ins for the two hash functions: each tags its input with a byte. -/
def sampleHashes : Hashes where
  Keccak256 := fun d => 1 :: d
  TextHash := fun t => 2 :: t

/-- A wallet for the account at address `0x0101...01`, URL `keystore:///k1`. -/
def sampleWallet : keystoreWallet Nat :=
  { account := { Address := Address.fill 1, URL := { Scheme := "keystore", Path := "/k1" } },
    keystore := 0 }

/-- The wallet's account, named by address only. -/
def sampleOwn : Account := { Address := Address.fill 1, URL := URL.zero }

/-- An account at another address. -/
def sampleOther : Account := { Address := Address.fill 2, URL := URL.zero }

/-- A miner that keeps the addresses it was given, newest first, tagged by
the setter that delivered them. -/
def sampleMiner : Miner (List MinerCall) where
  SetValidator := fun m v => MinerCall.SetValidator v :: m
  SetTxFeeRecipient := fun m r => MinerCall.SetTxFeeRecipient r :: m

/-- A configuration with every field at its zero value and sync mode `m`. -/
def sampleConfig (m : SyncMode) : Config :=
  { SyncMode := m, NetworkId := 0, NoPruning := false, TrieCleanCache := 0, TrieDirtyCache := 0,
    SnapshotCache := 0, GatewayFee := none, DatabaseCache := 0, DatabaseHandles := 0,
    DatabaseFreezer := "", SkipBcVersionCheck := false, TxPoolJournal := "",
    MinerValidator := Address.zero, MinerExtraData := [], TxFeeRecipient := Address.zero,
    BLSbase := Address.zero, LightNoPrune := false }

/-- A service with no validator, fee recipient or BLS base configured. -/
def sampleEthereum : Ethereum (List MinerCall) :=
  { config := sampleConfig 0, miner := [], gatewayFee := some 0, validator := Address.zero,
    txFeeRecipient := Address.zero, blsbase := Address.zero, networkID := 0 }

/-- Sync modes for evaluation: `LightSync` is 2 and `LightestSync` is 3, modes
above 3 are not valid, and every mode other than the two light ones counts as
syncing the full block chain. -/
def sampleModes : Modes where
  LightSync := 2
  LightestSync := 3
  IsValid := fun m => decide (m ≤ 3)
  SyncFullBlockChain := fun m => m != 2 && m != 3
  SyncFullHeaderChain := fun m => m != 3
  String := fun m => toString m

/-- A node stack on which every call succeeds. -/
def sampleEthEnv : EthEnv (List MinerCall) :=
  { DefaultGatewayFee := 0, BlockChainVersion := 8, VersionWithMeta := "1.0.0",
    OpenDatabaseWithFreezer := none, genesisErr := none, bcVersion := some 8,
    NewBlockChain := none, ResolvePath := fun p => "/data/" ++ p, NewProtocolManager := none,
    engine := some EngineKind.istanbul, miner := [], setupDiscovery := none }

/-- A node stack on which every call of `les.New` succeeds. -/
def sampleLesEnv : LesEnv :=
  { OpenDatabase := fun _ => none, genesisErr := none, setupDiscovery := none,
    NewLightChain := none, engine := some EngineKind.istanbul, ulc := false }

/-- A value tracker kept as the list of connected IDs, newest first: `Register`
adds the ID and returns it as the entry, `Unregister` removes it, and
`updateVtParams` counts its calls in the peer's remaining fields. -/
def sampleVtOps : VtOps (List ID) ID Nat where
  Register := fun t id => (some id, id :: t)
  Unregister := fun t id => t.erase id
  updateVtParams := fun p t => ({ p with rest := p.rest + 1 }, t)

/-- A tracker at address 1 with no peer connected. -/
def sampleTracker : ValueTracker (List ID) := { addr := 1, state := [] }

/-- A peer with ID `0x0707...07` and no tracker bound. -/
def samplePeer : serverPeer ID Nat :=
  { id := ID.fill 7, valueTracker := none, nodeValueTracker := none, rest := 0 }

/-- Collaborators kept as the list of stop calls they have served, newest
first. -/
def sampleCollaborators : Collaborators (List String) where
  stop := fun name g => name :: g

/-- A light service as `les.New` leaves it in `LightestSync`: channel made, no
indexers. -/
def sampleLightEthereum : LightEthereum :=
  { config := sampleConfig 3, chainDb := "lightestchaindata", closeCh := Chan.live,
    networkId := 0, bloomIndexer := none, chtIndexer := none, bloomTrieIndexer := none }

/-- A pool of four registrations of three peers; peer 2 registered twice. -/
def samplePool : List Nat := [1, 2, 3, 2]

/-- A request that peer 3 cannot serve, not cancelled. -/
def sampleRequest : retrieval.Request Nat := { eligible := fun p => p != 3, cancelled := false }

/-- Scores that prefer the higher peer number, whatever was tried. -/
def sampleScore : List Nat → Nat → Int := fun _ p => (p : Int)

/-- Every peer answers with object 0, which validation rejects. -/
def sampleReply : Nat → retrieval.Reply Nat := fun _ => retrieval.Reply.answer 0 false

/-! ## Theorems: accounts/keystore/wallet.go -/

/-- C1: `w.Contains(a)` is true exactly when `a.Address` equals
`w.account.Address` and `a.URL` is the empty URL or equals `w.account.URL`. -/
theorem C1_contains_iff {σ : Type} (w : keystoreWallet σ) (a : Account) :
    w.Contains a = true ↔
      a.Address = w.account.Address ∧ (a.URL = URL.zero ∨ a.URL = w.account.URL) := by
  simp [keystoreWallet.Contains]

/-- C2: for an account the wallet does not contain, each of the eleven signing
and key methods returns `accounts.ErrUnknownAccount` with an empty result,
leaves the wallet as it was and makes no keystore call; for an account it
contains, each makes exactly one keystore call, the matching keystore method on
the same arguments (the hash of the data or text for the data and text
methods), and returns that call's results unchanged. -/
theorem C2_guarded_forwarding {σ : Type} (K : KeyStore σ) (H : Hashes) (w : keystoreWallet σ)
    (a : Account) (hash data text msg extraData : Bytes) (mimeType passphrase : String)
    (tx : Option Transaction) (chainID : Option Int) (useComposite cip22 : Bool)
    (address : Address) :
    (w.Contains a = false →
      (w.SignHash K a hash).refused w [] ∧
      (w.SignData K H a mimeType data).refused w [] ∧
      (w.SignText K H a text).refused w [] ∧
      (w.SignTx K a tx chainID).refused w none ∧
      (w.SignDataWithPassphrase K H a passphrase mimeType data).refused w [] ∧
      (w.SignTextWithPassphrase K H a passphrase text).refused w [] ∧
      (w.SignTxWithPassphrase K a passphrase tx chainID).refused w none ∧
      (w.SignBLS K a msg extraData useComposite cip22).refused w SerializedSignature.zero ∧
      (w.GetPublicKey K a).refused w none ∧
      (w.GenerateProofOfPossession K a address).val = ([], [], some GoError.ErrUnknownAccount) ∧
      (w.GenerateProofOfPossession K a address).wallet = w ∧
      keystoreCalls (w.GenerateProofOfPossession K a address).trace = [] ∧
      (w.GenerateProofOfPossessionBLS K a address).val =
        ([], [], some GoError.ErrUnknownAccount) ∧
      (w.GenerateProofOfPossessionBLS K a address).wallet = w ∧
      keystoreCalls (w.GenerateProofOfPossessionBLS K a address).trace = []) ∧
    (w.Contains a = true →
      (w.SignHash K a hash).forwarded w (KeystoreCall.SignHash a hash)
        (K.SignHash w.keystore a hash) ∧
      (w.SignData K H a mimeType data).forwarded w (KeystoreCall.SignHash a (H.Keccak256 data))
        (K.SignHash w.keystore a (H.Keccak256 data)) ∧
      (w.SignText K H a text).forwarded w (KeystoreCall.SignHash a (H.TextHash text))
        (K.SignHash w.keystore a (H.TextHash text)) ∧
      (w.SignTx K a tx chainID).forwarded w (KeystoreCall.SignTx a tx chainID)
        (K.SignTx w.keystore a tx chainID) ∧
      (w.SignDataWithPassphrase K H a passphrase mimeType data).forwarded w
        (KeystoreCall.SignHashWithPassphrase a passphrase (H.Keccak256 data))
        (K.SignHashWithPassphrase w.keystore a passphrase (H.Keccak256 data)) ∧
      (w.SignTextWithPassphrase K H a passphrase text).forwarded w
        (KeystoreCall.SignHashWithPassphrase a passphrase (H.TextHash text))
        (K.SignHashWithPassphrase w.keystore a passphrase (H.TextHash text)) ∧
      (w.SignTxWithPassphrase K a passphrase tx chainID).forwarded w
        (KeystoreCall.SignTxWithPassphrase a passphrase tx chainID)
        (K.SignTxWithPassphrase w.keystore a passphrase tx chainID) ∧
      (w.SignBLS K a msg extraData useComposite cip22).forwarded w
        (KeystoreCall.SignBLS a msg extraData useComposite cip22)
        (K.SignBLS w.keystore a msg extraData useComposite cip22) ∧
      (w.GetPublicKey K a).forwarded w (KeystoreCall.GetPublicKey a)
        (K.GetPublicKey w.keystore a) ∧
      (w.GenerateProofOfPossession K a address).forwarded w
        (KeystoreCall.GenerateProofOfPossession a address)
        (K.GenerateProofOfPossession w.keystore a address) ∧
      (w.GenerateProofOfPossessionBLS K a address).forwarded w
        (KeystoreCall.GenerateProofOfPossessionBLS a address)
        (K.GenerateProofOfPossessionBLS w.keystore a address)) := by
  constructor
  · intro h
    simp [Ret.refused, keystoreWallet.SignHash, keystoreWallet.SignData, keystoreWallet.SignText,
      keystoreWallet.signHash, keystoreWallet.SignTx, keystoreWallet.SignDataWithPassphrase,
      keystoreWallet.SignTextWithPassphrase, keystoreWallet.SignTxWithPassphrase,
      keystoreWallet.SignBLS, keystoreWallet.GetPublicKey,
      keystoreWallet.GenerateProofOfPossession, keystoreWallet.GenerateProofOfPossessionBLS,
      h, keystoreCalls]
  · intro h
    simp [Ret.forwarded, forward, keystoreWallet.SignHash, keystoreWallet.SignData,
      keystoreWallet.SignText, keystoreWallet.signHash, keystoreWallet.SignTx,
      keystoreWallet.SignDataWithPassphrase, keystoreWallet.SignTextWithPassphrase,
      keystoreWallet.SignTxWithPassphrase, keystoreWallet.SignBLS, keystoreWallet.GetPublicKey,
      keystoreWallet.GenerateProofOfPossession, keystoreWallet.GenerateProofOfPossessionBLS,
      h, keystoreCalls]

/-- Witness for C2 on the sample wallet: a call for another address is refused
without touching the keystore counter, a call for the wallet's own account
returns the keystore's answer and the counter moves. -/
theorem C2_guarded_forwarding_witness :
    sampleWallet.Contains sampleOther = false ∧
    (sampleWallet.SignHash sampleKeyStore sampleOther [1, 2, 3]).refused sampleWallet [] ∧
    sampleWallet.Contains sampleOwn = true ∧
    (sampleWallet.SignHash sampleKeyStore sampleOwn [1, 2, 3]).forwarded sampleWallet
      (KeystoreCall.SignHash sampleOwn [1, 2, 3]) (([3, 2, 1], none), 1) :=
  ⟨by decide,
    ((C2_guarded_forwarding sampleKeyStore sampleHashes sampleWallet sampleOther [1, 2, 3] [] [] []
      [] "" "" none none false false Address.zero).1 (by decide)).1,
    by decide,
    ((C2_guarded_forwarding sampleKeyStore sampleHashes sampleWallet sampleOwn [1, 2, 3] [] [] []
      [] "" "" none none false false Address.zero).2 (by decide)).1⟩

/-- C3: `SignData` returns exactly what `SignHash` returns on
`Keccak256(data)`, whatever the `mimeType`, and `SignText` what `SignHash`
returns on `TextHash(text)`; the only keystore call `SignDataWithPassphrase`
can make is `SignHashWithPassphrase` on `Keccak256(data)`, the only one
`SignTextWithPassphrase` can make is `SignHashWithPassphrase` on
`TextHash(text)`, and for an account the wallet contains each makes that call
and returns its results. -/
theorem C3_data_and_text_hashing {σ : Type} (K : KeyStore σ) (H : Hashes)
    (w : keystoreWallet σ) (a : Account) (mimeType passphrase : String) (data text : Bytes) :
    w.SignData K H a mimeType data = w.SignHash K a (H.Keccak256 data) ∧
    (∀ mimeType2 : String, w.SignData K H a mimeType data = w.SignData K H a mimeType2 data) ∧
    w.SignText K H a text = w.SignHash K a (H.TextHash text) ∧
    (∀ c ∈ keystoreCalls (w.SignDataWithPassphrase K H a passphrase mimeType data).trace,
      c = KeystoreCall.SignHashWithPassphrase a passphrase (H.Keccak256 data)) ∧
    (∀ c ∈ keystoreCalls (w.SignTextWithPassphrase K H a passphrase text).trace,
      c = KeystoreCall.SignHashWithPassphrase a passphrase (H.TextHash text)) ∧
    (w.Contains a = true →
      (w.SignDataWithPassphrase K H a passphrase mimeType data).forwarded w
        (KeystoreCall.SignHashWithPassphrase a passphrase (H.Keccak256 data))
        (K.SignHashWithPassphrase w.keystore a passphrase (H.Keccak256 data)) ∧
      (w.SignTextWithPassphrase K H a passphrase text).forwarded w
        (KeystoreCall.SignHashWithPassphrase a passphrase (H.TextHash text))
        (K.SignHashWithPassphrase w.keystore a passphrase (H.TextHash text))) := by
  refine ⟨rfl, fun _ => rfl, rfl, ?_, ?_, ?_⟩
  · intro c hc
    cases h : w.Contains a <;>
      simp [keystoreWallet.SignDataWithPassphrase, forward, h, keystoreCalls] at hc
    exact hc
  · intro c hc
    cases h : w.Contains a <;>
      simp [keystoreWallet.SignTextWithPassphrase, forward, h, keystoreCalls] at hc
    exact hc
  · intro h
    simp [Ret.forwarded, forward, keystoreWallet.SignDataWithPassphrase,
      keystoreWallet.SignTextWithPassphrase, h, keystoreCalls]

/-- Witness for C3 on the sample wallet: signing data `[7]` as `text/plain`
is signing the hash `[1, 7]`, and with a passphrase the keystore is handed that
same hash. -/
theorem C3_data_and_text_hashing_witness :
    sampleWallet.Contains sampleOwn = true ∧
    sampleWallet.SignData sampleKeyStore sampleHashes sampleOwn "text/plain" [7] =
      sampleWallet.SignHash sampleKeyStore sampleOwn [1, 7] ∧
    (sampleWallet.SignDataWithPassphrase sampleKeyStore sampleHashes sampleOwn "pw" "text/plain"
        [7]).forwarded sampleWallet
      (KeystoreCall.SignHashWithPassphrase sampleOwn "pw" [1, 7]) (([7, 1], none), 1) :=
  ⟨by decide,
    (C3_data_and_text_hashing sampleKeyStore sampleHashes sampleWallet sampleOwn "text/plain" "pw"
      [7] [8]).1,
    ((C3_data_and_text_hashing sampleKeyStore sampleHashes sampleWallet sampleOwn "text/plain" "pw"
      [7] [8]).2.2.2.2.2 (by decide)).1⟩

/-- C4: `Derive` returns the zero `Account` with `accounts.ErrNotSupported` and
`ConfirmAddress` the zero `Address` with `accounts.ErrNotSupported`, for every
path and pin flag; neither changes the wallet, and neither has any effect. -/
theorem C4_derivation_not_supported {σ : Type} (w : keystoreWallet σ) (path : DerivationPath)
    (pin : Bool) :
    (w.Derive path pin).val = (Account.zero, some GoError.ErrNotSupported) ∧
    (w.Derive path pin).wallet = w ∧ (w.Derive path pin).trace = [] ∧
    (w.ConfirmAddress path).val = (Address.zero, some GoError.ErrNotSupported) ∧
    (w.ConfirmAddress path).wallet = w ∧ (w.ConfirmAddress path).trace = [] :=
  ⟨rfl, rfl, rfl, rfl, rfl, rfl⟩

/-! ## Theorems: eth/backend.go -/

/-- C5: `Validator()` returns `(v, nil)` with `v` the stored validator address
if and only if that address is not the zero address, and otherwise returns the
zero address with the error "validator must be explicitly specified";
`TxFeeRecipient()` does the same on the stored `txFeeRecipient` with the error
"txFeeRecipient must be explicitly specified"; neither call changes the
service or reaches the miner. -/
theorem C5_validator_and_txFeeRecipient {μ : Type} (s : Ethereum μ) :
    (s.Validator.val = (s.validator, none) ↔ s.validator ≠ Address.zero) ∧
    (s.validator = Address.zero →
      s.Validator.val =
        (Address.zero, some (GoError.New "validator must be explicitly specified"))) ∧
    s.Validator.eth = s ∧ s.Validator.trace = [] ∧
    (s.TxFeeRecipient.val = (s.txFeeRecipient, none) ↔ s.txFeeRecipient ≠ Address.zero) ∧
    (s.txFeeRecipient = Address.zero →
      s.TxFeeRecipient.val =
        (Address.zero, some (GoError.New "txFeeRecipient must be explicitly specified"))) ∧
    s.TxFeeRecipient.eth = s ∧ s.TxFeeRecipient.trace = [] := by
  refine ⟨?_, ?_, ?_, ?_, ?_, ?_, ?_, ?_⟩
  · by_cases h : s.validator = Address.zero <;> simp [Ethereum.Validator, h]
  · intro h
    simp [Ethereum.Validator, h]
  · by_cases h : s.validator = Address.zero <;> simp [Ethereum.Validator, h]
  · by_cases h : s.validator = Address.zero <;> simp [Ethereum.Validator, h]
  · by_cases h : s.txFeeRecipient = Address.zero <;> simp [Ethereum.TxFeeRecipient, h]
  · intro h
    simp [Ethereum.TxFeeRecipient, h]
  · by_cases h : s.txFeeRecipient = Address.zero <;> simp [Ethereum.TxFeeRecipient, h]
  · by_cases h : s.txFeeRecipient = Address.zero <;> simp [Ethereum.TxFeeRecipient, h]

/-- Witness for C5: the sample service has no validator and no fee recipient,
so both accessors fail with their own message. -/
theorem C5_validator_and_txFeeRecipient_witness :
    sampleEthereum.validator = Address.zero ∧
    sampleEthereum.Validator.val =
      (Address.zero, some (GoError.New "validator must be explicitly specified")) ∧
    sampleEthereum.txFeeRecipient = Address.zero ∧
    sampleEthereum.TxFeeRecipient.val =
      (Address.zero, some (GoError.New "txFeeRecipient must be explicitly specified")) :=
  ⟨rfl, (C5_validator_and_txFeeRecipient sampleEthereum).2.1 rfl, rfl,
    (C5_validator_and_txFeeRecipient sampleEthereum).2.2.2.2.2.1 rfl⟩

/-- C6: `BLSbase()` returns the stored `blsbase` with no error when it is not
the zero address, and otherwise returns exactly what `Validator()` returns;
hence `BLSbase()` returns an error if and only if both the `blsbase` and the
validator addresses are zero. -/
theorem C6_blsbase_falls_back {μ : Type} (s : Ethereum μ) :
    (s.blsbase ≠ Address.zero → s.BLSbase.val = (s.blsbase, none)) ∧
    (s.blsbase = Address.zero → s.BLSbase = s.Validator) ∧
    (s.BLSbase.val.2 ≠ none ↔ s.blsbase = Address.zero ∧ s.validator = Address.zero) := by
  refine ⟨?_, ?_, ?_⟩
  · intro h
    simp [Ethereum.BLSbase, h]
  · intro h
    simp [Ethereum.BLSbase, h]
  · by_cases hb : s.blsbase = Address.zero <;> by_cases hv : s.validator = Address.zero <;>
      simp [Ethereum.BLSbase, Ethereum.Validator, hb, hv]

/-- Witness for C6: with only a validator set, `BLSbase()` answers with the
validator; with a BLS base set, it answers with the BLS base. -/
theorem C6_blsbase_falls_back_witness :
    ({ sampleEthereum with validator := Address.fill 5 }).BLSbase.val =
      (Address.fill 5, none) ∧
    ({ sampleEthereum with blsbase := Address.fill 9 }).BLSbase.val = (Address.fill 9, none) :=
  ⟨((C6_blsbase_falls_back { sampleEthereum with validator := Address.fill 5 }).2.1 rfl).symm ▸
      (by decide),
    (C6_blsbase_falls_back { sampleEthereum with blsbase := Address.fill 9 }).1 (by decide)⟩

/-- C7: for a non-zero address `v`, after `SetValidator(v)` the call
`Validator()` returns `(v, nil)`, the miner has been given `v` by one call of
`miner.SetValidator`, and the stored `txFeeRecipient` and `blsbase` are as
before; for a non-zero `r`, after `SetTxFeeRecipient(r)` the call
`TxFeeRecipient()` returns `(r, nil)`, the miner has been given `r` by one call
of `miner.SetTxFeeRecipient`, and the stored validator and `blsbase` are as
before. -/
theorem C7_setters {μ : Type} (M : Miner μ) (s : Ethereum μ) (v r : Address)
    (hv : v ≠ Address.zero) (hr : r ≠ Address.zero) :
    ((s.SetValidator M v).eth.Validator.val = (v, none) ∧
      (s.SetValidator M v).eth.miner = M.SetValidator s.miner v ∧
      (s.SetValidator M v).trace = [MinerCall.SetValidator v] ∧
      (s.SetValidator M v).eth.txFeeRecipient = s.txFeeRecipient ∧
      (s.SetValidator M v).eth.blsbase = s.blsbase) ∧
    ((s.SetTxFeeRecipient M r).eth.TxFeeRecipient.val = (r, none) ∧
      (s.SetTxFeeRecipient M r).eth.miner = M.SetTxFeeRecipient s.miner r ∧
      (s.SetTxFeeRecipient M r).trace = [MinerCall.SetTxFeeRecipient r] ∧
      (s.SetTxFeeRecipient M r).eth.validator = s.validator ∧
      (s.SetTxFeeRecipient M r).eth.blsbase = s.blsbase) := by
  refine ⟨⟨?_, rfl, rfl, rfl, rfl⟩, ⟨?_, rfl, rfl, rfl, rfl⟩⟩
  · simp [Ethereum.SetValidator, Ethereum.Validator, hv]
  · simp [Ethereum.SetTxFeeRecipient, Ethereum.TxFeeRecipient, hr]

/-- Witness for C7: setting the validator `0x0505...05` on the sample service
makes `Validator()` return it and hands it to the miner. -/
theorem C7_setters_witness :
    Address.fill 5 ≠ Address.zero ∧ Address.fill 6 ≠ Address.zero ∧
    (sampleEthereum.SetValidator sampleMiner (Address.fill 5)).eth.Validator.val =
      (Address.fill 5, none) ∧
    (sampleEthereum.SetValidator sampleMiner (Address.fill 5)).eth.miner =
      [MinerCall.SetValidator (Address.fill 5)] :=
  ⟨by decide, by decide,
    (C7_setters sampleMiner sampleEthereum (Address.fill 5) (Address.fill 6) (by decide)
      (by decide)).1.1,
    (C7_setters sampleMiner sampleEthereum (Address.fill 5) (Address.fill 6) (by decide)
      (by decide)).1.2.1⟩

/-- C8: `eth.New` refuses light modes.  When `SyncFullBlockChain()` is false for
the configured mode it returns a nil service and the error "can't run
eth.Ethereum in light sync mode or lightest sync mode, use les.LightEthereum";
when that check passes and `IsValid()` is false it returns a nil service and
the error `fmt.Errorf("invalid sync mode %d", mode)`, the text "invalid sync
mode" followed by the mode's number.  In both cases the configuration is as it
was and nothing has happened yet: no database was opened. -/
theorem C8_new_refuses_light_modes {μ : Type} (D : Modes) (E : EthEnv μ) (config : Config) :
    (D.SyncFullBlockChain config.SyncMode = false →
      (eth.New D E config).val = Outcome.returned (none, some (GoError.New
        "can't run eth.Ethereum in light sync mode or lightest sync mode, use les.LightEthereum")) ∧
      (eth.New D E config).config = config ∧ (eth.New D E config).trace = []) ∧
    (D.SyncFullBlockChain config.SyncMode = true → D.IsValid config.SyncMode = false →
      (eth.New D E config).val = Outcome.returned
        (none, some (GoError.New ("invalid sync mode " ++ toString config.SyncMode))) ∧
      (eth.New D E config).config = config ∧ (eth.New D E config).trace = []) := by
  constructor
  · intro h
    simp [eth.New, h]
  · intro h1 h2
    simp [eth.New, h1, h2]

/-- Witness for C8: on the sample modes, `LightSync` (2) is refused with the
light-mode error and the unknown mode 7 with "invalid sync mode 7". -/
theorem C8_new_refuses_light_modes_witness :
    sampleModes.SyncFullBlockChain (sampleConfig 2).SyncMode = false ∧
    (eth.New sampleModes sampleEthEnv (sampleConfig 2)).val =
      Outcome.returned (none, some (GoError.New
        "can't run eth.Ethereum in light sync mode or lightest sync mode, use les.LightEthereum")) ∧
    sampleModes.SyncFullBlockChain (sampleConfig 7).SyncMode = true ∧
    sampleModes.IsValid (sampleConfig 7).SyncMode = false ∧
    (eth.New sampleModes sampleEthEnv (sampleConfig 7)).val =
      Outcome.returned (none, some (GoError.New "invalid sync mode 7")) :=
  ⟨by decide,
    ((C8_new_refuses_light_modes sampleModes sampleEthEnv (sampleConfig 2)).1 (by decide)).1,
    by decide, by decide,
    ((C8_new_refuses_light_modes sampleModes sampleEthEnv (sampleConfig 7)).2 (by decide)
      (by decide)).1⟩

/-- On the sample stack a full sync mode gets past both checks, opens
`chaindata` with the freezer and returns a service; with a nil engine the same
construction panics once the RPC service is built, before anything is
registered on the node. -/
theorem eth_New_full_mode_opens_chaindata :
    NodeEvent.OpenDatabaseWithFreezer "chaindata" 0 0 "" "eth/db/chaindata/" ∈
      (eth.New sampleModes sampleEthEnv (sampleConfig 0)).trace ∧
    (match (eth.New sampleModes sampleEthEnv (sampleConfig 0)).val with
      | Outcome.returned (some _, none) => true
      | _ => false) = true ∧
    (match (eth.New sampleModes { sampleEthEnv with engine := none } (sampleConfig 0)).val with
      | Outcome.panicked msg => msg == nilDereference
      | _ => false) = true ∧
    (eth.New sampleModes { sampleEthEnv with engine := none } (sampleConfig 0)).trace.getLast? =
      some (NodeEvent.call "ethapi.NewPublicNetAPI") := by
  decide

/-! ## Theorems: les/client.go -/

set_option maxHeartbeats 1000000 in
/-- Without the full header chain, `les.New` creates no indexer. -/
theorem assemble_false_no_indexer (E : LesEnv) (config : Config) (chainName : String) :
    ∀ e ∈ (assemble E config chainName false).trace, e.createsIndexer = false := by
  have hall : (assemble E config chainName false).trace.all
      (fun e => !e.createsIndexer) = true := by
    unfold assemble
    rcases E with ⟨od, ge, sd, nl, eng, ul⟩
    cases h1 : od chainName <;> cases h2 : od "lespay" <;> cases h3 : GenesisErr.fatal ge <;>
      cases sd <;> cases nl <;> cases ul <;> cases h4 : GenesisErr.isCompat ge <;>
      rcases eng with _ | (_ | _) <;>
      simp [h1, h2, h3, h4, NodeEvent.createsIndexer]
  intro e he
  have := List.all_eq_true.mp hall e he
  simpa using this

/-- Without the full header chain, the service `les.New` returns has no
indexer. -/
theorem assemble_false_indexers_nil (E : LesEnv) (config : Config) (chainName : String)
    (leth : LightEthereum) (err : Option GoError)
    (h : (assemble E config chainName false).val = Outcome.returned (some leth, err)) :
    leth.bloomIndexer = none ∧ leth.chtIndexer = none ∧ leth.bloomTrieIndexer = none := by
  unfold assemble at h
  rcases E with ⟨od, ge, sd, nl, eng, ul⟩
  cases h1 : od chainName <;> cases h2 : od "lespay" <;> cases h3 : GenesisErr.fatal ge <;>
    cases sd <;> cases nl <;> cases eng <;> simp [h1, h2, h3] at h
  rcases h with ⟨h, -⟩
  subst h
  exact ⟨rfl, rfl, rfl⟩

/-- The first thing `les.New` does after choosing the chain name is to open
the database of that name. -/
theorem assemble_trace_head (E : LesEnv) (config : Config) (chainName : String)
    (fullChainAvailable : Bool) :
    (assemble E config chainName fullChainAvailable).trace.head? =
      some (NodeEvent.OpenDatabase chainName config.DatabaseCache config.DatabaseHandles
        "eth/db/chaindata/") := by
  unfold assemble
  rcases E with ⟨od, ge, sd, nl, eng, ul⟩
  cases h1 : od chainName <;> cases h2 : od "lespay" <;> cases h3 : GenesisErr.fatal ge <;>
    cases sd <;> cases nl <;> cases ul <;> cases h4 : GenesisErr.isCompat ge <;>
    cases fullChainAvailable <;> rcases eng with _ | (_ | _) <;> simp [h1, h2, h3, h4]

/-- C9: `les.New` selects its chain database from the sync mode.  With
`LightSync` it runs with chain name "lightchaindata" and the full header chain
available, and the first thing it does is open that database; with
`LightestSync` (a constant other than `LightSync`) it runs with
"lightestchaindata" and the full header chain not available, and opens that
database first; with any other mode it panics with "Unexpected sync mode: "
followed by the mode's name, before anything has happened, so before any
database is opened.  A bloom, CHT or bloom-trie indexer is created, and is
present on the returned service, only when the full header chain is available. -/
theorem C9_chain_database_selection (D : Modes) (E : LesEnv) (config : Config) :
    (config.SyncMode = D.LightSync →
      les.New D E config = assemble E config "lightchaindata" true ∧
      (les.New D E config).trace.head? =
        some (NodeEvent.OpenDatabase "lightchaindata" config.DatabaseCache
          config.DatabaseHandles "eth/db/chaindata/")) ∧
    (config.SyncMode = D.LightestSync → D.LightestSync ≠ D.LightSync →
      les.New D E config = assemble E config "lightestchaindata" false ∧
      (les.New D E config).trace.head? =
        some (NodeEvent.OpenDatabase "lightestchaindata" config.DatabaseCache
          config.DatabaseHandles "eth/db/chaindata/")) ∧
    (config.SyncMode ≠ D.LightSync → config.SyncMode ≠ D.LightestSync →
      (les.New D E config).val =
        Outcome.panicked ("Unexpected sync mode: " ++ D.String config.SyncMode) ∧
      (les.New D E config).trace = []) ∧
    (∀ e ∈ (les.New D E config).trace, e.createsIndexer = true →
      ∃ chainName, chainSelection D config.SyncMode = Outcome.returned (chainName, true)) ∧
    (∀ leth err, (les.New D E config).val = Outcome.returned (some leth, err) →
      leth.bloomIndexer ≠ none ∨ leth.chtIndexer ≠ none ∨ leth.bloomTrieIndexer ≠ none →
      ∃ chainName, chainSelection D config.SyncMode = Outcome.returned (chainName, true)) := by
  refine ⟨?_, ?_, ?_, ?_, ?_⟩
  · intro h
    have hn : les.New D E config = assemble E config "lightchaindata" true := by
      simp [les.New, chainSelection, h]
    exact ⟨hn, by rw [hn]; exact assemble_trace_head E config _ _⟩
  · intro h hne
    have hn : les.New D E config = assemble E config "lightestchaindata" false := by
      simp [les.New, chainSelection, h, hne]
    exact ⟨hn, by rw [hn]; exact assemble_trace_head E config _ _⟩
  · intro h1 h2
    simp [les.New, chainSelection, h1, h2]
  · intro e he hc
    by_cases h1 : config.SyncMode = D.LightSync
    · exact ⟨"lightchaindata", by simp [chainSelection, h1]⟩
    · by_cases h2 : config.SyncMode = D.LightestSync
      · have hne : D.LightestSync ≠ D.LightSync := fun hq => h1 (h2.trans hq)
        have hn : les.New D E config = assemble E config "lightestchaindata" false := by
          simp [les.New, chainSelection, h2, hne]
        rw [hn] at he
        have := assemble_false_no_indexer E config _ e he
        simp [this] at hc
      · simp [les.New, chainSelection, h1, h2] at he
  · intro leth err hv hi
    by_cases h1 : config.SyncMode = D.LightSync
    · exact ⟨"lightchaindata", by simp [chainSelection, h1]⟩
    · by_cases h2 : config.SyncMode = D.LightestSync
      · have hne : D.LightestSync ≠ D.LightSync := fun hq => h1 (h2.trans hq)
        have hn : les.New D E config = assemble E config "lightestchaindata" false := by
          simp [les.New, chainSelection, h2, hne]
        rw [hn] at hv
        obtain ⟨a, b, c⟩ := assemble_false_indexers_nil E config _ leth err hv
        simp [a, b, c] at hi
      · simp [les.New, chainSelection, h1, h2] at hv

/-- Witness for C9 on the sample modes and stack: mode 2 opens
"lightchaindata", mode 3 opens "lightestchaindata", mode 0 panics with nothing
done, and the indexers of the mode-2 run come with the full header chain. -/
theorem C9_chain_database_selection_witness :
    (les.New sampleModes sampleLesEnv (sampleConfig 2)).trace.head? =
      some (NodeEvent.OpenDatabase "lightchaindata" 0 0 "eth/db/chaindata/") ∧
    (les.New sampleModes sampleLesEnv (sampleConfig 3)).trace.head? =
      some (NodeEvent.OpenDatabase "lightestchaindata" 0 0 "eth/db/chaindata/") ∧
    ((les.New sampleModes sampleLesEnv (sampleConfig 0)).val =
        Outcome.panicked "Unexpected sync mode: 0" ∧
      (les.New sampleModes sampleLesEnv (sampleConfig 0)).trace = []) ∧
    NodeEvent.NewChtIndexer "lightchaindata" false true ∈
      (les.New sampleModes sampleLesEnv (sampleConfig 2)).trace ∧
    (∃ chainName,
      chainSelection sampleModes (sampleConfig 2).SyncMode = Outcome.returned (chainName, true)) :=
  ⟨((C9_chain_database_selection sampleModes sampleLesEnv (sampleConfig 2)).1 rfl).2,
    ((C9_chain_database_selection sampleModes sampleLesEnv (sampleConfig 3)).2.1 rfl
      (by decide)).2,
    (C9_chain_database_selection sampleModes sampleLesEnv (sampleConfig 0)).2.2.1 (by decide)
      (by decide),
    by decide,
    (C9_chain_database_selection sampleModes sampleLesEnv (sampleConfig 2)).2.2.2.1
      (NodeEvent.NewChtIndexer "lightchaindata" false true) (by decide) rfl⟩

/-- C10: a peer's ValueTracker entry is bound on registration and released on
unregistration.  `registerPeer(p)` runs `Register` on the tracker with `p`'s
ID, stores the tracker and the returned entry on `p` and then runs
`updateVtParams` on that peer: the peer and the tracker state it leaves are
exactly what `updateVtParams` returned, and these are its only two calls, one
`Register` with `p`'s ID.  Provided `updateVtParams` leaves the peer's ID and
its two tracker references alone, `p` then carries the tracker and the entry
`Register` returned.  `unregisterPeer(q)` runs `Unregister` on the tracker with
`q`'s ID, its only call, and leaves both references nil.  After
`registerPeer(p)` followed by `unregisterPeer` on the same peer both
references are nil, the tracker is in the state `Unregister` with `p`'s ID
makes of the state registration left, and the calls for `p`'s ID are one
`Register` and one `Unregister`. -/
theorem C10_value_tracker_binding {τ ν ρ : Type} (O : VtOps τ ν ρ) (v : ValueTracker τ)
    (p q : serverPeer ν ρ)
    (hupd : ∀ (x : serverPeer ν ρ) (t : τ),
      (O.updateVtParams x t).1.id = x.id ∧
      (O.updateVtParams x t).1.valueTracker = x.valueTracker ∧
      (O.updateVtParams x t).1.nodeValueTracker = x.nodeValueTracker) :
    ((vtSubscription.registerPeer O v p).trace =
        [VtCall.Register p.id, VtCall.updateVtParams p.id] ∧
      (vtSubscription.registerPeer O v p).peer =
        (O.updateVtParams
          { p with valueTracker := some v.addr,
                   nodeValueTracker := (O.Register v.state p.id).1 }
          (O.Register v.state p.id).2).1 ∧
      (vtSubscription.registerPeer O v p).tracker.state =
        (O.updateVtParams
          { p with valueTracker := some v.addr,
                   nodeValueTracker := (O.Register v.state p.id).1 }
          (O.Register v.state p.id).2).2 ∧
      (vtSubscription.registerPeer O v p).peer.id = p.id ∧
      (vtSubscription.registerPeer O v p).peer.valueTracker = some v.addr ∧
      (vtSubscription.registerPeer O v p).peer.nodeValueTracker =
        (O.Register v.state p.id).1 ∧
      (vtSubscription.registerPeer O v p).tracker.addr = v.addr) ∧
    ((vtSubscription.unregisterPeer O v q).trace = [VtCall.Unregister q.id] ∧
      (vtSubscription.unregisterPeer O v q).peer =
        { q with valueTracker := none, nodeValueTracker := none } ∧
      (vtSubscription.unregisterPeer O v q).peer.valueTracker = none ∧
      (vtSubscription.unregisterPeer O v q).peer.nodeValueTracker = none ∧
      (vtSubscription.unregisterPeer O v q).tracker.state = O.Unregister v.state q.id ∧
      (vtSubscription.unregisterPeer O v q).tracker.addr = v.addr) ∧
    ((vtSubscription.unregisterPeer O (vtSubscription.registerPeer O v p).tracker
          (vtSubscription.registerPeer O v p).peer).peer.valueTracker = none ∧
      (vtSubscription.unregisterPeer O (vtSubscription.registerPeer O v p).tracker
          (vtSubscription.registerPeer O v p).peer).peer.nodeValueTracker = none ∧
      (vtSubscription.unregisterPeer O (vtSubscription.registerPeer O v p).tracker
          (vtSubscription.registerPeer O v p).peer).tracker.state =
        O.Unregister
          (O.updateVtParams
            { p with valueTracker := some v.addr,
                     nodeValueTracker := (O.Register v.state p.id).1 }
            (O.Register v.state p.id).2).2 p.id ∧
      (vtSubscription.registerPeer O v p).trace ++
          (vtSubscription.unregisterPeer O (vtSubscription.registerPeer O v p).tracker
            (vtSubscription.registerPeer O v p).peer).trace =
        [VtCall.Register p.id, VtCall.updateVtParams p.id, VtCall.Unregister p.id] ∧
      ((vtSubscription.registerPeer O v p).trace ++
          (vtSubscription.unregisterPeer O (vtSubscription.registerPeer O v p).tracker
            (vtSubscription.registerPeer O v p).peer).trace).count (VtCall.Register p.id) =
        ((vtSubscription.registerPeer O v p).trace ++
          (vtSubscription.unregisterPeer O (vtSubscription.registerPeer O v p).tracker
            (vtSubscription.registerPeer O v p).peer).trace).count (VtCall.Unregister p.id)) := by
  have hid : (vtSubscription.registerPeer O v p).peer.id = p.id := by
    simpa [vtSubscription.registerPeer, serverPeer.setValueTracker] using
      (hupd (p.setValueTracker (some v.addr) (O.Register v.state p.ID).1)
        (O.Register v.state p.ID).2).1
  have hvt : (vtSubscription.registerPeer O v p).peer.valueTracker = some v.addr := by
    simpa [vtSubscription.registerPeer, serverPeer.setValueTracker] using
      (hupd (p.setValueTracker (some v.addr) (O.Register v.state p.ID).1)
        (O.Register v.state p.ID).2).2.1
  have hnv : (vtSubscription.registerPeer O v p).peer.nodeValueTracker =
      (O.Register v.state p.id).1 := by
    simpa [vtSubscription.registerPeer, serverPeer.setValueTracker, serverPeer.ID] using
      (hupd (p.setValueTracker (some v.addr) (O.Register v.state p.ID).1)
        (O.Register v.state p.ID).2).2.2
  have htr : (vtSubscription.registerPeer O v p).trace =
      [VtCall.Register p.id, VtCall.updateVtParams p.id] := rfl
  have hun : ∀ (w : ValueTracker τ) (x : serverPeer ν ρ),
      (vtSubscription.unregisterPeer O w x).trace = [VtCall.Unregister x.id] := fun _ _ => rfl
  refine ⟨⟨htr, rfl, rfl, hid, hvt, hnv, rfl⟩, ⟨rfl, rfl, rfl, rfl, rfl, rfl⟩,
    ⟨rfl, rfl, ?_, ?_, ?_⟩⟩
  · show O.Unregister _ (vtSubscription.registerPeer O v p).peer.id = _
    rw [hid]
    rfl
  · rw [htr, hun, hid]
    rfl
  · rw [htr, hun, hid]
    simp

/-- Witness for C10 on the sample tracker: registering the sample peer binds
tracker 1 and the entry for its ID, puts the ID on the tracker's connected list
and refreshes the peer's parameters once; unregistering it afterwards clears
both references and takes the ID off the list again. -/
theorem C10_value_tracker_binding_witness :
    (vtSubscription.registerPeer sampleVtOps sampleTracker samplePeer).peer.valueTracker =
      some 1 ∧
    (vtSubscription.registerPeer sampleVtOps sampleTracker samplePeer).peer.nodeValueTracker =
      some (ID.fill 7) ∧
    (vtSubscription.registerPeer sampleVtOps sampleTracker samplePeer).peer =
      { id := ID.fill 7, valueTracker := some 1, nodeValueTracker := some (ID.fill 7),
        rest := 1 } ∧
    (vtSubscription.registerPeer sampleVtOps sampleTracker samplePeer).tracker.state =
      [ID.fill 7] ∧
    (vtSubscription.unregisterPeer sampleVtOps
        (vtSubscription.registerPeer sampleVtOps sampleTracker samplePeer).tracker
        (vtSubscription.registerPeer sampleVtOps sampleTracker samplePeer).peer).peer.valueTracker =
      none ∧
    (vtSubscription.unregisterPeer sampleVtOps
        (vtSubscription.registerPeer sampleVtOps sampleTracker samplePeer).tracker
        (vtSubscription.registerPeer sampleVtOps sampleTracker samplePeer).peer).tracker.state =
      [] :=
  ⟨(C10_value_tracker_binding sampleVtOps sampleTracker samplePeer samplePeer
      (fun _ _ => ⟨rfl, rfl, rfl⟩)).1.2.2.2.2.1,
    (C10_value_tracker_binding sampleVtOps sampleTracker samplePeer samplePeer
      (fun _ _ => ⟨rfl, rfl, rfl⟩)).1.2.2.2.2.2.1,
    (C10_value_tracker_binding sampleVtOps sampleTracker samplePeer samplePeer
      (fun _ _ => ⟨rfl, rfl, rfl⟩)).1.2.1,
    (C10_value_tracker_binding sampleVtOps sampleTracker samplePeer samplePeer
      (fun _ _ => ⟨rfl, rfl, rfl⟩)).1.2.2.1,
    (C10_value_tracker_binding sampleVtOps sampleTracker samplePeer samplePeer
      (fun _ _ => ⟨rfl, rfl, rfl⟩)).2.2.1,
    (C10_value_tracker_binding sampleVtOps sampleTracker samplePeer samplePeer
      (fun _ _ => ⟨rfl, rfl, rfl⟩)).2.2.2.2.1.trans (by decide)⟩

/-- The sample service is what `les.New` returns on the sample stack in
`LightestSync`. -/
theorem sampleLightEthereum_from_New :
    (les.New sampleModes sampleLesEnv (sampleConfig 3)).val =
      Outcome.returned (some sampleLightEthereum, none) := by
  decide

/-- On the sample stack with a nil engine, `les.New` panics once the RPC service
is built, before anything is registered on the node. -/
theorem les_New_nil_engine_panics :
    (les.New sampleModes { sampleLesEnv with engine := none } (sampleConfig 3)).val =
      Outcome.panicked nilDereference ∧
    (les.New sampleModes { sampleLesEnv with engine := none } (sampleConfig 3)).trace.getLast? =
      some (NodeEvent.call "ethapi.NewPublicNetAPI") := by
  decide

/-- C13, as the code has it: `Stop` is not idempotent.  On a service whose
`closeCh` is live the first call closes the channel, then stops the server
pool, the value tracker, the peer set, the request distributor, the ODR
retrieval layer and the relay, closes the bloom and CHT indexers when there are
any, stops the chain, the handler, the pool, the engine, the pruner, the event
mux and the database, waits for the wait group, in this order, and returns nil;
the collaborators end in the state these calls, applied one after the other,
leave.  A second call on the state the first one left panics with "close of
closed channel" at its first statement, so it does not complete, and it leaves
the service and its collaborators as they were after the first call, having
stopped nothing. -/
theorem C13_stop_once {γ : Type} (O : Collaborators γ) (s : LightEthereum) (parts : γ)
    (hlive : s.closeCh = Chan.live) :
    ((s.Stop O parts).val = Outcome.returned none ∧
      (s.Stop O parts).leth = { s with closeCh := Chan.closed } ∧
      (s.Stop O parts).parts =
        O.stop "wg.Wait" (O.stop "chainDb.Close" (O.stop "eventMux.Stop"
          (O.stop "pruner.close" (O.stop "engine.Close" (O.stop "txPool.Stop"
            (O.stop "handler.stop" (O.stop "blockchain.Stop"
              (if s.chtIndexer = none then
                (if s.bloomIndexer = none then
                  O.stop "relay.Stop" (O.stop "odr.Stop" (O.stop "reqDist.close"
                    (O.stop "peers.close" (O.stop "valueTracker.Stop"
                      (O.stop "serverPool.stop" parts)))))
                else
                  O.stop "bloomIndexer.Close"
                    (O.stop "relay.Stop" (O.stop "odr.Stop" (O.stop "reqDist.close"
                      (O.stop "peers.close" (O.stop "valueTracker.Stop"
                        (O.stop "serverPool.stop" parts)))))))
              else
                O.stop "chtIndexer.Close"
                  (if s.bloomIndexer = none then
                    O.stop "relay.Stop" (O.stop "odr.Stop" (O.stop "reqDist.close"
                      (O.stop "peers.close" (O.stop "valueTracker.Stop"
                        (O.stop "serverPool.stop" parts)))))
                  else
                    O.stop "bloomIndexer.Close"
                      (O.stop "relay.Stop" (O.stop "odr.Stop" (O.stop "reqDist.close"
                        (O.stop "peers.close" (O.stop "valueTracker.Stop"
                          (O.stop "serverPool.stop" parts))))))))))))))) ∧
      (s.Stop O parts).trace =
        [NodeEvent.call "serverPool.stop", NodeEvent.call "valueTracker.Stop",
          NodeEvent.call "peers.close", NodeEvent.call "reqDist.close",
          NodeEvent.call "odr.Stop", NodeEvent.call "relay.Stop"] ++
        (if s.bloomIndexer = none then [] else [NodeEvent.call "bloomIndexer.Close"]) ++
        (if s.chtIndexer = none then [] else [NodeEvent.call "chtIndexer.Close"]) ++
        [NodeEvent.call "blockchain.Stop", NodeEvent.call "handler.stop",
          NodeEvent.call "txPool.Stop", NodeEvent.call "engine.Close",
          NodeEvent.call "pruner.close", NodeEvent.call "eventMux.Stop",
          NodeEvent.call "chainDb.Close", NodeEvent.call "wg.Wait",
          NodeEvent.log "info" "Light ethereum stopped"]) ∧
    (((s.Stop O parts).leth.Stop O (s.Stop O parts).parts).val =
        Outcome.panicked "close of closed channel" ∧
      ((s.Stop O parts).leth.Stop O (s.Stop O parts).parts).leth = (s.Stop O parts).leth ∧
      ((s.Stop O parts).leth.Stop O (s.Stop O parts).parts).parts = (s.Stop O parts).parts ∧
      ((s.Stop O parts).leth.Stop O (s.Stop O parts).parts).trace = []) := by
  have h1 : s.Stop O parts =
      { val := Outcome.returned none
        leth := { s with closeCh := Chan.closed }
        parts := (stopCalls s).foldl (fun g name => O.stop name g) parts
        trace := (stopCalls s).map NodeEvent.call ++
          [NodeEvent.log "info" "Light ethereum stopped"] } := by
    simp [LightEthereum.Stop, hlive, Chan.close, stopCalls]
  rw [h1]
  refine ⟨⟨rfl, rfl, ?_, ?_⟩, ⟨rfl, rfl, rfl, rfl⟩⟩
  · cases hb : s.bloomIndexer <;> cases hc : s.chtIndexer <;> simp [stopCalls, hb, hc]
  · cases hb : s.bloomIndexer <;> cases hc : s.chtIndexer <;> simp [stopCalls, hb, hc]

/-- Witness for C13.  On the sample service, which has no indexers, the first
`Stop` returns nil after fourteen stop calls, from `serverPool.stop` to
`wg.Wait` (the collaborators list them newest first), and the second panics;
on the same service with a bloom and a CHT indexer the first `Stop` closes
both, after the relay and before the chain. -/
theorem C13_stop_once_witness :
    sampleLightEthereum.closeCh = Chan.live ∧
    (sampleLightEthereum.Stop sampleCollaborators []).val = Outcome.returned none ∧
    (sampleLightEthereum.Stop sampleCollaborators []).parts =
      ["wg.Wait", "chainDb.Close", "eventMux.Stop", "pruner.close", "engine.Close",
        "txPool.Stop", "handler.stop", "blockchain.Stop", "relay.Stop", "odr.Stop",
        "reqDist.close", "peers.close", "valueTracker.Stop", "serverPool.stop"] ∧
    (({ sampleLightEthereum with
          bloomIndexer := some { db := "lightchaindata", fullChainAvailable := true }
          chtIndexer := some { db := "lightchaindata", fullChainAvailable := true } } :
        LightEthereum).Stop sampleCollaborators []).parts =
      ["wg.Wait", "chainDb.Close", "eventMux.Stop", "pruner.close", "engine.Close",
        "txPool.Stop", "handler.stop", "blockchain.Stop", "chtIndexer.Close",
        "bloomIndexer.Close", "relay.Stop", "odr.Stop", "reqDist.close", "peers.close",
        "valueTracker.Stop", "serverPool.stop"] ∧
    ((sampleLightEthereum.Stop sampleCollaborators []).leth.Stop sampleCollaborators
        (sampleLightEthereum.Stop sampleCollaborators []).parts).val =
      Outcome.panicked "close of closed channel" :=
  ⟨rfl, (C13_stop_once sampleCollaborators sampleLightEthereum [] rfl).1.1,
    (C13_stop_once sampleCollaborators sampleLightEthereum [] rfl).1.2.2.1,
    (C13_stop_once sampleCollaborators
      { sampleLightEthereum with
        bloomIndexer := some { db := "lightchaindata", fullChainAvailable := true }
        chtIndexer := some { db := "lightchaindata", fullChainAvailable := true } }
      [] rfl).1.2.2.1,
    (C13_stop_once sampleCollaborators sampleLightEthereum [] rfl).2.1⟩

/-- Counterexample to C13 as stated: on the sample service the second `Stop`
does not complete, it panics with "close of closed channel" and returns
nothing. -/
theorem C13_second_stop_panics :
    ((sampleLightEthereum.Stop sampleCollaborators []).leth.Stop sampleCollaborators
        (sampleLightEthereum.Stop sampleCollaborators []).parts).val =
      Outcome.panicked "close of closed channel" ∧
    ¬ ∃ err, ((sampleLightEthereum.Stop sampleCollaborators []).leth.Stop sampleCollaborators
        (sampleLightEthereum.Stop sampleCollaborators []).parts).val = Outcome.returned err := by
  refine ⟨by decide, ?_⟩
  rintro ⟨err, h⟩
  have hp : ((sampleLightEthereum.Stop sampleCollaborators []).leth.Stop sampleCollaborators
      (sampleLightEthereum.Stop sampleCollaborators []).parts).val =
      Outcome.panicked "close of closed channel" := by decide
  rw [hp] at h
  cases h

/-! ## Theorems: the retrieval layer of the spec -/

/-- The distributor has no candidate exactly when no distinct eligible peer is
left untried. -/
theorem candidates_eq_nil_iff {P : Type} [DecidableEq P] (peers : List P)
    (req : retrieval.Request P) (tried : List P) :
    retrieval.candidates peers req tried = [] ↔ retrieval.untried peers req tried = 0 := by
  simp only [retrieval.candidates, retrieval.untried, retrieval.eligiblePeers,
    List.length_eq_zero, List.filter_eq_nil_iff, List.mem_filter, List.mem_dedup]

/-- Marking a candidate as tried leaves one distinct eligible peer fewer. -/
theorem untried_cons {P : Type} [DecidableEq P] (peers : List P) (req : retrieval.Request P)
    (tried : List P) (p : P) (hp : p ∈ retrieval.candidates peers req tried) :
    retrieval.untried peers req (p :: tried) + 1 = retrieval.untried peers req tried := by
  simp only [retrieval.candidates, List.mem_filter, decide_eq_true_eq] at hp
  obtain ⟨⟨hpp, hpe⟩, hpt⟩ := hp
  unfold retrieval.untried
  have hnd : ((retrieval.eligiblePeers peers req).filter (fun q => decide (q ∉ tried))).Nodup :=
    (List.nodup_dedup _).filter _
  have hmem : p ∈ (retrieval.eligiblePeers peers req).filter (fun q => decide (q ∉ tried)) := by
    simp [retrieval.eligiblePeers, hpp, hpe, hpt]
  have heq : (retrieval.eligiblePeers peers req).filter (fun q => decide (q ∉ p :: tried)) =
      ((retrieval.eligiblePeers peers req).filter (fun q => decide (q ∉ tried))).erase p := by
    rw [hnd.erase_eq_filter, List.filter_filter]
    congr 1
    funext q
    by_cases hq : q = p <;> simp [hq]
  rw [heq, List.length_erase_of_mem hmem]
  have : 0 < ((retrieval.eligiblePeers peers req).filter (fun q => decide (q ∉ tried))).length :=
    List.length_pos_of_mem hmem
  omega

/-- When every peer answers invalidly and the request is not cancelled, the
loop ends with `Exhausted`, and what it sends from any point on goes to distinct
eligible peers not tried before, as many as the attempts left allow. -/
theorem retrieveLoop_all_invalid {P α : Type} [DecidableEq P] (flag : Bool)
    (score : List P → P → Int) (peers : List P) (req : retrieval.Request P)
    (reply : P → retrieval.Reply α) (hc : req.cancelled = false)
    (hinv : ∀ p ∈ peers, ∃ obj, reply p = retrieval.Reply.answer obj false) :
    ∀ (r : Nat) (tried sent : List P),
      (retrieval.retrieveLoop flag score peers req reply r tried sent).result =
        Except.error retrieval.RetrieveError.Exhausted ∧
      ∃ new, (retrieval.retrieveLoop flag score peers req reply r tried sent).sent = sent ++ new ∧
        new.Nodup ∧ (∀ p ∈ new, p ∈ peers ∧ req.eligible p = true ∧ p ∉ tried) ∧
        new.length = min r (retrieval.untried peers req tried) := by
  intro r
  induction r with
  | zero =>
    intro tried sent
    exact ⟨rfl, [], by simp [retrieval.retrieveLoop]⟩
  | succ k ih =>
    intro tried sent
    cases hd : (retrieval.candidates peers req tried).argmax (score tried) with
    | none =>
      have hnil := List.argmax_eq_none.mp hd
      have h0 : retrieval.untried peers req tried = 0 := (candidates_eq_nil_iff _ _ _).mp hnil
      cases flag with
      | false =>
        refine ⟨by simp [retrieval.retrieveLoop, retrieval.distribute, hc, hd], [], ?_⟩
        simp [retrieval.retrieveLoop, retrieval.distribute, hc, hd, h0]
      | true =>
        obtain ⟨h1, new, h2, h3, h4, h5⟩ := ih tried sent
        refine ⟨by simpa [retrieval.retrieveLoop, retrieval.distribute, hc, hd] using h1, new,
          ?_, h3, h4, ?_⟩
        · simpa [retrieval.retrieveLoop, retrieval.distribute, hc, hd] using h2
        · simpa [h0] using h5
    | some p =>
      have hp : p ∈ retrieval.candidates peers req tried := List.argmax_mem hd
      have hp' := hp
      simp only [retrieval.candidates, List.mem_filter, decide_eq_true_eq] at hp'
      obtain ⟨⟨hpp, hpe⟩, hpt⟩ := hp'
      obtain ⟨obj, hobj⟩ := hinv p hpp
      obtain ⟨h1, new, h2, h3, h4, h5⟩ := ih (p :: tried) (sent ++ [p])
      have hstep : retrieval.retrieveLoop flag score peers req reply (k + 1) tried sent =
          retrieval.retrieveLoop flag score peers req reply k (p :: tried) (sent ++ [p]) := by
        simp [retrieval.retrieveLoop, retrieval.distribute, hc, hd, hobj]
      rw [hstep]
      refine ⟨h1, p :: new, by simp [h2], ?_, ?_, ?_⟩
      · refine List.nodup_cons.mpr ⟨fun hmem => ?_, h3⟩
        exact (h4 p hmem).2.2 (List.mem_cons_self _ _)
      · intro q hq
        rcases List.mem_cons.mp hq with rfl | hq
        · exact ⟨hpp, hpe, hpt⟩
        · obtain ⟨a, b, c⟩ := h4 q hq
          exact ⟨a, b, fun h => c (List.mem_cons_of_mem _ h)⟩
      · have := untried_cons peers req tried p hp
        simp only [List.length_cons, h5]
        omega

/-- C12: a retrieval with `maxAttempts = k` over a pool of fewer than `k`
peers, all of which answer with a reply that validation rejects, ends with
`Exhausted`; the number of attempts, one per request sent, is the number of
distinct eligible peers; no peer is sent the request twice, and the peers asked
are exactly the distinct eligible peers.  This holds for every scoring and
under both readings of what `NoAvailablePeer` does to the attempt counter. -/
theorem C12_exhausted_after_each_peer_once {P α : Type} [DecidableEq P]
    (noPeerSpendsAttempt : Bool) (score : List P → P → Int) (peers : List P)
    (req : retrieval.Request P) (reply : P → retrieval.Reply α) (k : Nat)
    (hc : req.cancelled = false)
    (hinv : ∀ p ∈ peers, ∃ obj, reply p = retrieval.Reply.answer obj false)
    (hk : peers.length < k) :
    (retrieval.retrieve noPeerSpendsAttempt score peers req reply k).result =
      Except.error retrieval.RetrieveError.Exhausted ∧
    (retrieval.retrieve noPeerSpendsAttempt score peers req reply k).sent.length =
      (retrieval.eligiblePeers peers req).length ∧
    (retrieval.retrieve noPeerSpendsAttempt score peers req reply k).sent.Nodup ∧
    (retrieval.retrieve noPeerSpendsAttempt score peers req reply k).sent.Perm
      (retrieval.eligiblePeers peers req) := by
  obtain ⟨h1, new, h2, h3, h4, h5⟩ :=
    retrieveLoop_all_invalid noPeerSpendsAttempt score peers req reply hc hinv k [] []
  have hsent : (retrieval.retrieve noPeerSpendsAttempt score peers req reply k).sent = new := by
    simpa [retrieval.retrieve] using h2
  have hun : retrieval.untried peers req [] = (retrieval.eligiblePeers peers req).length := by
    simp [retrieval.untried]
  have hle : (retrieval.eligiblePeers peers req).length ≤ peers.length :=
    ((List.dedup_sublist _).length_le).trans (List.length_filter_le _ _)
  have hlen : new.length = (retrieval.eligiblePeers peers req).length := by
    rw [h5, hun]
    omega
  have hsub : new ⊆ retrieval.eligiblePeers peers req := by
    intro p hp
    obtain ⟨a, b, -⟩ := h4 p hp
    simp [retrieval.eligiblePeers, a, b]
  refine ⟨h1, ?_, ?_, ?_⟩
  · rw [hsent, hlen]
  · rw [hsent]
    exact h3
  · rw [hsent]
    exact (List.subperm_of_subset h3 hsub).perm_of_length_le (by omega)

/-- Witness for C12: over the sample pool (three peers, peer 3 not eligible)
with five attempts allowed, the retrieval is exhausted after asking peers 2 and
1 once each. -/
theorem C12_exhausted_after_each_peer_once_witness :
    samplePool.length < 5 ∧
    (retrieval.retrieve true sampleScore samplePool sampleRequest sampleReply 5).result =
      Except.error retrieval.RetrieveError.Exhausted ∧
    (retrieval.retrieve true sampleScore samplePool sampleRequest sampleReply 5).sent.length =
      2 ∧
    (retrieval.retrieve true sampleScore samplePool sampleRequest sampleReply 5).sent = [2, 1] :=
  ⟨by decide,
    (C12_exhausted_after_each_peer_once true sampleScore samplePool sampleRequest sampleReply 5
      rfl (fun _ _ => ⟨0, rfl⟩) (by decide)).1,
    (C12_exhausted_after_each_peer_once true sampleScore samplePool sampleRequest sampleReply 5
      rfl (fun _ _ => ⟨0, rfl⟩) (by decide)).2.1,
    by decide⟩

/-! ## Theorems: the ValueTracker of the spec -/

/-- The total weight of a well-formed list of accumulators is positive. -/
theorem totalWeight_pos {K : Type} [LinearOrderedField K] (l : List (lpc.Accumulator K))
    (h0 : ∀ a ∈ l, 0 ≤ a.weight) (h1 : ∃ a ∈ l, 0 < a.weight) :
    0 < (l.map (fun a => a.weight)).sum := by
  induction l with
  | nil => simp at h1
  | cons a t ih =>
    have ha := h0 a (List.mem_cons_self _ _)
    have ht : 0 ≤ (t.map (fun a => a.weight)).sum :=
      List.sum_nonneg (by
        intro x hx
        obtain ⟨b, hb, rfl⟩ := List.mem_map.mp hx
        exact h0 b (List.mem_cons_of_mem _ hb))
    simp only [List.map_cons, List.sum_cons]
    obtain ⟨b, hb, hpos⟩ := h1
    rcases List.mem_cons.mp hb with rfl | hb
    · linarith
    · have := ih (fun x hx => h0 x (List.mem_cons_of_mem _ hx)) ⟨b, hb, hpos⟩
      linarith

/-- Reading an entry at `now` is the weighted sum of the stored values, each
decayed by the time since the last update. -/
theorem Entry_peerValue_eq {K : Type} [Field K] (exp : K → K) (e : lpc.Entry K) (now : K) :
    e.peerValue exp now =
      (e.accumulators.map
        (fun a => a.weight * (a.value * exp (-(now - e.lastUpdate) / a.halfLife)))).sum := by
  simp [lpc.Entry.peerValue, lpc.Entry.decay, lpc.Accumulator.decay, List.map_map,
    Function.comp_def]

/-- Crediting an entry and reading it at the same instant adds the credited
amount times the total weight. -/
theorem Entry_peerValue_credit (e : lpc.Entry ℝ) (now amount : ℝ) :
    (e.credit Real.exp now amount).peerValue Real.exp now =
      e.peerValue Real.exp now + amount * (e.accumulators.map (fun a => a.weight)).sum := by
  rw [Entry_peerValue_eq, Entry_peerValue_eq]
  simp only [lpc.Entry.credit, lpc.Entry.decay, lpc.Accumulator.decay, List.map_map,
    Function.comp_def, sub_self, neg_zero, zero_div, Real.exp_zero, mul_one]
  induction e.accumulators with
  | nil => simp
  | cons a t ih =>
    simp only [List.map_cons, List.sum_cons, ih]
    ring

/-- Crediting keeps an entry well formed. -/
theorem Entry_credit_wellFormed {K : Type} [LinearOrderedField K] (exp : K → K)
    (e : lpc.Entry K) (now amount : K) (h : e.wellFormed) :
    (e.credit exp now amount).wellFormed := by
  obtain ⟨h0, a, ha, hpos⟩ := h
  constructor
  · intro b hb
    simp only [lpc.Entry.credit, lpc.Entry.decay, lpc.Accumulator.decay, List.map_map,
      List.mem_map, Function.comp_def] at hb
    obtain ⟨c, hc, rfl⟩ := hb
    exact h0 c hc
  · refine ⟨{ a with value := a.value * exp (-(now - e.lastUpdate) / a.halfLife) + amount },
      ?_, hpos⟩
    simp only [lpc.Entry.credit, lpc.Entry.decay, lpc.Accumulator.decay, List.map_map,
      List.mem_map, Function.comp_def]
    exact ⟨a, ha, rfl⟩

/-- A run of credits to one peer keeps that peer's entry well formed. -/
theorem creditMany_wellFormed {K P C : Type} [LinearOrderedField K] [DecidableEq P]
    (T : lpc.TrackerParams K C) (now : K) (peerID : P) (credits : List (C × K × K)) :
    ∀ entries : P → lpc.Entry K, (entries peerID).wellFormed →
      (lpc.creditMany T entries now peerID credits peerID).wellFormed := by
  induction credits with
  | nil =>
    intro entries h
    exact h
  | cons c t ih =>
    intro entries h
    simp only [lpc.creditMany, List.foldl_cons]
    apply ih
    simp only [lpc.credit, if_true]
    exact Entry_credit_wellFormed _ _ _ _ h

/-- With no further credit, a decayed weighted sum tends to zero as time
goes on. -/
theorem decayedSum_tendsto_zero (l : List (lpc.Accumulator ℝ)) (last : ℝ)
    (hl : ∀ a ∈ l, 0 < a.halfLife) :
    Filter.Tendsto
      (fun t => (l.map
        (fun a => a.weight * (a.value * Real.exp (-(t - last) / a.halfLife)))).sum)
      Filter.atTop (nhds 0) := by
  induction l with
  | nil => simp
  | cons a t ih =>
    have hpos := hl a (List.mem_cons_self _ _)
    have harg : Filter.Tendsto (fun x : ℝ => -(x - last) / a.halfLife) Filter.atTop
        Filter.atBot := by
      have h1 : Filter.Tendsto (fun x : ℝ => x - last) Filter.atTop Filter.atTop :=
        Filter.tendsto_atTop_add_const_right _ _ Filter.tendsto_id
      have h2 : Filter.Tendsto (fun x : ℝ => (x - last) / a.halfLife) Filter.atTop
          Filter.atTop := h1.atTop_div_const hpos
      have h3 := Filter.tendsto_neg_atTop_atBot.comp h2
      refine h3.congr (fun x => ?_)
      show -((x - last) / a.halfLife) = -(x - last) / a.halfLife
      rw [neg_div]
    have hexp : Filter.Tendsto (fun x : ℝ => Real.exp (-(x - last) / a.halfLife)) Filter.atTop
        (nhds 0) := Real.tendsto_exp_atBot.comp harg
    have hterm : Filter.Tendsto
        (fun x : ℝ => a.weight * (a.value * Real.exp (-(x - last) / a.halfLife)))
        Filter.atTop (nhds 0) := by
      simpa using (hexp.const_mul a.value).const_mul a.weight
    have := hterm.add (ih (fun b hb => hl b (List.mem_cons_of_mem _ hb)))
    simpa using this

/-- With no further credit, a decayed weighted sum of non-negative values
does not grow as time goes on. -/
theorem decayedSum_antitone (l : List (lpc.Accumulator ℝ)) (last : ℝ)
    (hl : ∀ a ∈ l, 0 < a.halfLife ∧ 0 ≤ a.weight ∧ 0 ≤ a.value)
    (t1 t2 : ℝ) (h12 : t1 ≤ t2) :
    (l.map (fun a => a.weight * (a.value * Real.exp (-(t2 - last) / a.halfLife)))).sum ≤
      (l.map (fun a => a.weight * (a.value * Real.exp (-(t1 - last) / a.halfLife)))).sum := by
  induction l with
  | nil => simp
  | cons a t ih =>
    obtain ⟨hh, hw, hv⟩ := hl a (List.mem_cons_self _ _)
    have harg : -(t2 - last) / a.halfLife ≤ -(t1 - last) / a.halfLife := by
      apply div_le_div_of_nonneg_right _ hh.le
      linarith
    have hexp := Real.exp_le_exp.mpr harg
    have hterm : a.weight * (a.value * Real.exp (-(t2 - last) / a.halfLife)) ≤
        a.weight * (a.value * Real.exp (-(t1 - last) / a.halfLife)) :=
      mul_le_mul_of_nonneg_left (mul_le_mul_of_nonneg_left hexp hv) hw
    have := ih (fun b hb => hl b (List.mem_cons_of_mem _ hb))
    simp only [List.map_cons, List.sum_cons]
    linarith

/-- C11, the time-decay law, with the real exponential as the spec's `exp`:
for every peer with a well-formed entry and every category, after any run of
credits at an instant `now`, one more credit of positive (cost-normalized)
value at that instant, so before any decay, makes `peerValue` of the peer
strictly larger; and with no further credit `peerValue` of the peer tends to
zero as time goes on, never growing on the way when the stored values are not
negative. -/
theorem C11_time_decay_law {P C : Type} [DecidableEq P] (T : lpc.TrackerParams ℝ C)
    (entries : P → lpc.Entry ℝ) (peerID : P) (category : C) (observedCost observedValue now : ℝ)
    (credits : List (C × ℝ × ℝ))
    (hexp : T.exp = Real.exp) (hwf : (entries peerID).wellFormed)
    (hpos : 0 < T.normalize category observedCost observedValue) :
    lpc.peerValue T (lpc.creditMany T entries now peerID credits) now peerID <
      lpc.peerValue T
        (lpc.creditMany T entries now peerID
          (credits ++ [(category, observedCost, observedValue)])) now peerID ∧
    Filter.Tendsto (fun t => lpc.peerValue T entries t peerID) Filter.atTop (nhds 0) ∧
    ((∀ a ∈ (entries peerID).accumulators, 0 ≤ a.value) → ∀ t1 t2 : ℝ, t1 ≤ t2 →
      lpc.peerValue T entries t2 peerID ≤ lpc.peerValue T entries t1 peerID) := by
  refine ⟨?_, ?_, ?_⟩
  · have hw := creditMany_wellFormed T now peerID credits entries hwf
    have hsum := totalWeight_pos _ (fun a ha => (hw.1 a ha).2) hw.2
    have hstep : lpc.creditMany T entries now peerID
        (credits ++ [(category, observedCost, observedValue)]) peerID =
        (lpc.creditMany T entries now peerID credits peerID).credit Real.exp now
          (T.normalize category observedCost observedValue) := by
      simp [lpc.creditMany, List.foldl_append, lpc.credit, hexp]
    simp only [lpc.peerValue, hstep, hexp, Entry_peerValue_credit]
    have := mul_pos hpos hsum
    linarith
  · simp only [lpc.peerValue, hexp, Entry_peerValue_eq]
    exact decayedSum_tendsto_zero _ _ (fun a ha => (hwf.1 a ha).1)
  · intro hv t1 t2 h12
    simp only [lpc.peerValue, hexp, Entry_peerValue_eq]
    exact decayedSum_antitone _ _ (fun a ha => ⟨(hwf.1 a ha).1, (hwf.1 a ha).2, hv a ha⟩) t1 t2 h12

/-- Witness for C11: on a fresh entry with the client's three time constants,
after one credit of value 2 a second credit of value 3 at the same instant
raises the peer's value. -/
theorem C11_time_decay_law_witness :
    lpc.peerValue ({ exp := Real.exp, normalize := fun _ _ v => v } : lpc.TrackerParams ℝ Unit)
        (lpc.creditMany { exp := Real.exp, normalize := fun _ _ v => v }
          (fun _ : Nat => lpc.clientEntry ℝ) 0 7 [((), 1, 2)]) 0 7 <
      lpc.peerValue ({ exp := Real.exp, normalize := fun _ _ v => v } : lpc.TrackerParams ℝ Unit)
        (lpc.creditMany { exp := Real.exp, normalize := fun _ _ v => v }
          (fun _ : Nat => lpc.clientEntry ℝ) 0 7 ([((), 1, 2)] ++ [((), 1, 3)])) 0 7 :=
  (C11_time_decay_law { exp := Real.exp, normalize := fun _ _ v => v }
    (fun _ : Nat => lpc.clientEntry ℝ) 7 () 1 3 0 [((), 1, 2)] rfl
    ⟨by
        intro a ha
        simp only [lpc.clientEntry, List.mem_cons, List.mem_singleton, List.not_mem_nil,
          or_false] at ha
        rcases ha with rfl | rfl | rfl <;> norm_num,
      ⟨_, List.mem_cons_self _ _, by norm_num [lpc.clientEntry]⟩⟩
    (by norm_num)).1

end Celo
